import Mathlib

/-!
Verification of the bluesky 3.5.1 fire-pipeline core.

Part I (`Ing`) is a shallow embedding of `bluesky/modules/ingestion.py`:
the `FireIngester` and `FirePostProcessor` classes.  Python dicts are
modelled as structures whose `Option` fields stand for dict keys (a key
present with value `None` never occurs for these fields, since the code
only stores non-`None` values).  Python truthiness is modelled explicitly
(`0`, `""`, empty list and empty dict are falsy).  Raised `ValueError`s
become `Except.error` carrying the message.

Part II (`FM`) models the `FiresManager` / `FiresMerger` /
`FireGrowthFilter` behaviour of `bluesky/models/fires.py`.  That module is
not among the available sources (only its unit tests are), so Part II is
modelled from the specification's description of the Collection Manager,
Merger and Growth Filter, cross-checked against the expectations of
`test/unit/bluesky/models/test_fires.py`.
-/

namespace Ing

/-- A GeoJSON object; only its `type` field steers control flow in
`ingestion.py` (`GEOJSON_AREA_GEOMETRIES` membership).  An empty (falsy)
GeoJSON dict is modelled as `none` at the use sites. -/
structure GeoJson where
  gtype : String
deriving DecidableEq, Repr

/-- `GEOJSON_AREA_GEOMETRIES = ('Polygon', 'MultiPolygon')` from
`ingestion.py`. -/
def geojsonAreaGeometries : List String := ["Polygon", "MultiPolygon"]

/-- Python truthiness of an optional number (`0` is falsy, as in
`if area:`). -/
def numTruthy : Option Rat → Bool
  | none => false
  | some a => decide (a ≠ 0)

/-- Python truthiness of an optional string (`""` is falsy). -/
def strTruthy : Option String → Bool
  | none => false
  | some s => decide (s ≠ "")

/-- The literal part of `OPTIONAL_LOCATION_FIELDS` from `ingestion.py`
(lines 188-221).  The list is further extended at import time from
`bluesky.consumeutils.SETTINGS`, a module that is not among the available
sources; those extra field names do not occur in any claim and are not
modelled. -/
def optionalLocationFields : List String :=
  ["ecoregion", "utc_offset", "elevation", "slope",
   "state", "county", "country",
   "moisture_1hr", "moisture_10hr", "moisture_100hr", "moisture_1khr",
   "moisture_live", "moisture_duff",
   "min_wind", "max_wind", "min_wind_aloft", "max_wind_aloft",
   "min_humid", "max_humid", "min_temp", "max_temp",
   "min_temp_hour", "max_temp_hour", "sunrise_hour", "sunset_hour",
   "snow_month", "rain_days"]

/-- A `location` dict.  `geojson`, `latitude`, `longitude` and `area` are
the base-location fields; `opt` holds the optional descriptive fields
(`ecoregion`, `utc_offset`, `country`, ...) as key/value pairs, presence
in the list meaning presence of the dict key. -/
structure Loc where
  geojson : Option GeoJson := none
  latitude : Option Rat := none
  longitude : Option Rat := none
  area : Option Rat := none
  opt : List (String × String) := []
deriving DecidableEq, Repr

/-- The empty location dict `{}`. -/
def emptyLoc : Loc := {}

/-- Association-list lookup, modelling `dict.get`. -/
def getOpt (l : List (String × String)) (k : String) : Option String :=
  match l.find? (fun kv => kv.1 = k) with
  | some kv => some kv.2
  | none => none

/-- Dict truthiness of a `Loc`: nonempty iff some key is present. -/
def locTruthy (l : Loc) : Bool :=
  l.geojson.isSome || l.latitude.isSome || l.longitude.isSome ||
    l.area.isSome || !l.opt.isEmpty

/-- Membership test for a key in a location dict, as in
`f in fire_location`. -/
def locHasKey (l : Loc) (k : String) : Bool :=
  (getOpt l.opt k).isSome

/-- `FireIngester._get_base_location_object(GeoJSON, lat, lng, area)`
(ingestion.py lines 360-383), the shared location-resolution rule.
Returns the built base-location dict; `{}` (i.e. `emptyLoc`) means the
location is undefined.  Note the Python truthiness test `if area:` — an
area of `0` counts as absent — while `lat`/`lng` are tested with
`is not None`. -/
def mkBaseLocObj (gj : Option GeoJson) (lat lng area : Option Rat) : Loc :=
  match gj with
  | some g =>
    if numTruthy area then
      { geojson := some g, area := area }
    else if g.gtype ∈ geojsonAreaGeometries then
      { geojson := some g }
    else
      emptyLoc
  | none =>
    if lat.isSome && lng.isSome && numTruthy area then
      { latitude := lat, longitude := lng, area := area }
    else
      emptyLoc

/-- Whether `mkBaseLocObj` produced a defined (nonempty) base location. -/
def baseDefined (l : Loc) : Bool := locTruthy l

/-- The condition claim C3 states for a defined location: geometry present
together with an area that is *present*, or with a polygon-family type;
otherwise latitude, longitude and area all *present*.  (Presence, not
truthiness.) -/
def c3ClaimCond (gj : Option GeoJson) (lat lng area : Option Rat) : Bool :=
  (gj.isSome && (area.isSome || (match gj with
      | some g => g.gtype ∈ geojsonAreaGeometries
      | none => false : Bool))) ||
    (lat.isSome && lng.isSome && area.isSome)

end Ing

namespace Ing

/-- One raw fuelbed entry; `_ingest_nested_field_fuelbeds` keeps the
fields of `OPTIONAL_FUELBED_FIELDS` whose values are truthy.  Values are
modelled as strings (their contents are never inspected). -/
structure RawFuelbed where
  fccsId : Option String := none
  pct : Option String := none
  fuelLoadings : Option String := none
  consumption : Option String := none
  emissions : Option String := none
  emissionsDetails : Option String := none
deriving DecidableEq, Repr

/-- `_ingest_nested_field_fuelbeds`: copy over the truthy optional
fields of one raw fuelbed entry. -/
def filterFuelbed (fb : RawFuelbed) : RawFuelbed :=
  { fccsId := if strTruthy fb.fccsId then fb.fccsId else none
    pct := if strTruthy fb.pct then fb.pct else none
    fuelLoadings := if strTruthy fb.fuelLoadings then fb.fuelLoadings else none
    consumption := if strTruthy fb.consumption then fb.consumption else none
    emissions := if strTruthy fb.emissions then fb.emissions else none
    emissionsDetails :=
      if strTruthy fb.emissionsDetails then fb.emissionsDetails else none }

/-- Dict truthiness of a filtered fuelbed entry (`if fuelbed:`). -/
def fuelbedTruthy (fb : RawFuelbed) : Bool :=
  fb.fccsId.isSome || fb.pct.isSome || fb.fuelLoadings.isSome ||
    fb.consumption.isSome || fb.emissions.isSome || fb.emissionsDetails.isSome

/-- List truthiness of an optional fuelbeds value (`if fire.get('fuelbeds')`:
a present but empty list is falsy). -/
def fbsTruthy : Option (List RawFuelbed) → Bool
  | some (_ :: _) => true
  | _ => false

/-- The raw `location` dict of an input record. -/
structure RawLoc where
  geojson : Option GeoJson := none
  latitude : Option Rat := none
  longitude : Option Rat := none
  area : Option Rat := none
  opt : List (String × String) := []
deriving DecidableEq, Repr

/-- Dict truthiness of a raw location. -/
def rawLocTruthy (l : RawLoc) : Bool :=
  l.geojson.isSome || l.latitude.isSome || l.longitude.isSome ||
    l.area.isSome || !l.opt.isEmpty

/-- One entry of a raw `growth` array.  Base-location fields may sit
directly on the growth dict or nested under its own `location` key
(`_ingest_growth_location` looks in both, growth-level first). -/
structure RawGrowth where
  start : Option String := none
  endT : Option String := none
  pct : Option Rat := none
  geojson : Option GeoJson := none
  latitude : Option Rat := none
  longitude : Option Rat := none
  area : Option Rat := none
  location : Option RawLoc := none
  opt : List (String × String) := []
deriving DecidableEq, Repr

/-- A raw input record (the `_parsed_input` dict), restricted to the
fields `ingestion.py` reads.  `topOpt` holds the top-level optional
location fields of the flat SF2 shape; `otherKeys` records whether any
further (ignored) top-level keys are present, which only matters for the
`NO_DATA` emptiness check. -/
structure RawFire where
  location : Option RawLoc := none
  geojson : Option GeoJson := none
  latitude : Option Rat := none
  longitude : Option Rat := none
  area : Option Rat := none
  start : Option String := none
  endT : Option String := none
  pct : Option Rat := none
  dateTime : Option String := none
  growth : Option (List RawGrowth) := none
  fuelbeds : Option (List RawFuelbed) := none
  topOpt : List (String × String) := []
  otherKeys : Bool := false
deriving DecidableEq, Repr

/-- `if not fire:` — the raw record is an empty dict. -/
def rawIsEmpty (r : RawFire) : Bool :=
  r.location.isNone && r.geojson.isNone && r.latitude.isNone &&
    r.longitude.isNone && r.area.isNone && r.start.isNone &&
    r.endT.isNone && r.pct.isNone && r.dateTime.isNone &&
    r.growth.isNone && r.fuelbeds.isNone && r.topOpt.isEmpty &&
    !r.otherKeys

/-- `_get_field(k, 'location')`: look under the raw `location` dict first,
then fall back to the top level (used for the base-location fields). -/
def getFieldGeojson (r : RawFire) : Option GeoJson :=
  match r.location with
  | some l => match l.geojson with
    | some g => some g
    | none => r.geojson
  | none => r.geojson

/-- `_get_field('latitude', 'location')`. -/
def getFieldLat (r : RawFire) : Option Rat :=
  match r.location with
  | some l => match l.latitude with
    | some v => some v
    | none => r.latitude
  | none => r.latitude

/-- `_get_field('longitude', 'location')`. -/
def getFieldLng (r : RawFire) : Option Rat :=
  match r.location with
  | some l => match l.longitude with
    | some v => some v
    | none => r.longitude
  | none => r.longitude

/-- `_get_field('area', 'location')`. -/
def getFieldArea (r : RawFire) : Option Rat :=
  match r.location with
  | some l => match l.area with
    | some v => some v
    | none => r.area
  | none => r.area

/-- `_get_fields('location', OPTIONAL_LOCATION_FIELDS)`: the optional
fields found under the raw `location` dict or at the top level, skipping
undefined ones (`is not None`; empty strings are kept). -/
def getOptionalLocFields (r : RawFire) : List (String × String) :=
  optionalLocationFields.filterMap (fun k =>
    let v : Option String :=
      match r.location with
      | some l => match getOpt l.opt k with
        | some v => some v
        | none => getOpt r.topOpt k
      | none => getOpt r.topOpt k
    match v with
    | some v => some (k, v)
    | none => none)

/-- `_ingest_nested_field_location`: build the fire-level `location` dict
as base-location object updated with the optional fields. -/
def ingestLocation (r : RawFire) : Loc :=
  let base := mkBaseLocObj (getFieldGeojson r) (getFieldLat r)
    (getFieldLng r) (getFieldArea r)
  { base with opt := getOptionalLocFields r }

/-- A canonical (post-ingest, pre-reconciliation) growth window.  `pct`
is still present here; `location` is `none` when the window carries no
`location` key at all (only possible for windows synthesized by
`_ingest_special_field_date_time`), and `some l` otherwise, where `l`
may be the empty dict.  Windows built by `_ingest_nested_field_growth`
never carry fuelbeds (the `_ingest_nested_field_fuelbeds(g)` call in it
mutates only the audit copy of the raw input). -/
structure GrowthIn where
  start : Option String := none
  endT : Option String := none
  pct : Option Rat := none
  location : Option Loc := none
  fuelbeds : Option (List RawFuelbed) := none
deriving DecidableEq, Repr

/-- `_ingest_growth_location` for one raw growth entry: base-location
fields looked up on the growth dict with fallback to its nested
`location`, then the optional location fields.  Note the quirk of lines
434-439 of ingestion.py: an optional field is only copied from the
*nested* `location` dict — a value sitting directly on the growth dict
is read but never stored. -/
def ingestGrowthLoc (g : RawGrowth) : Loc :=
  let pick : (RawGrowth → Option GeoJson) → (RawLoc → Option GeoJson) →
      Option GeoJson := fun f fl =>
    match f g with
    | some v => some v
    | none => match g.location with
      | some l => fl l
      | none => none
  let pickN : (RawGrowth → Option Rat) → (RawLoc → Option Rat) →
      Option Rat := fun f fl =>
    match f g with
    | some v => some v
    | none => match g.location with
      | some l => fl l
      | none => none
  let base := mkBaseLocObj
    (pick (fun x => x.geojson) (fun x => x.geojson))
    (pickN (fun x => x.latitude) (fun x => x.latitude))
    (pickN (fun x => x.longitude) (fun x => x.longitude))
    (pickN (fun x => x.area) (fun x => x.area))
  let opts := optionalLocationFields.filterMap (fun k =>
    match getOpt g.opt k with
    | some _ => none
    | none =>
      match g.location with
      | some l =>
        match getOpt l.opt k with
        | some v => some (k, v)
        | none => none
      | none => none)
  { base with opt := opts }

/-- `_ingest_optional_growth_fields` restricted to the fields the model
carries (`start`, `end`, `pct`); truthy values only. -/
def ingestGrowthEntry (g : RawGrowth) : GrowthIn :=
  { start := if strTruthy g.start then g.start else none
    endT := if strTruthy g.endT then g.endT else none
    pct := if numTruthy g.pct then g.pct else none
    location := some (ingestGrowthLoc g)
    fuelbeds := none }

/-- `_ingest_nested_field_growth`: build the canonical growth array.
With no (truthy) raw growth array, a top-level truthy `start`/`end` pair
synthesizes one window carrying `pct` 100 — then overwritten by truthy
top-level optional growth fields, including a top-level `pct`.  A lone
window lacking `pct` gets 100.  An empty result leaves the `growth` key
unset (`none`). -/
def ingestGrowth (r : RawFire) : Option (List GrowthIn) :=
  let raw : List RawGrowth := match r.growth with
    | some (g :: gs) => g :: gs
    | _ => []
  let growth : List GrowthIn :=
    if raw.isEmpty then
      if strTruthy r.start && strTruthy r.endT then
        [{ start := r.start, endT := r.endT
           pct := if numTruthy r.pct then r.pct else some 100
           location := none, fuelbeds := none }]
      else []
    else
      raw.map ingestGrowthEntry
  match growth with
  | [] => none
  | [g] =>
    some [if g.pct.isNone then { g with pct := some 100 } else g]
  | gs => some gs

/-- `_ingest_nested_field_fuelbeds` applied to the fire: entries with any
truthy optional field survive; an empty result leaves the key unset. -/
def ingestFuelbeds (r : RawFire) : Option (List RawFuelbed) :=
  match r.fuelbeds with
  | some (fb :: fbs) =>
    let kept := ((fb :: fbs).map filterFuelbed).filter fuelbedTruthy
    match kept with
    | [] => none
    | ks => some ks
  | _ => none

end Ing

namespace Ing

/-- Error message constants of `IngestionErrMsgs` (ingestion.py lines
166-185); the Lean strings name the constants rather than reproducing the
exact prose. -/
def noDataMsg : String := "NO_DATA"

/-- `IngestionErrMsgs.ONE_GEOJSON_MULTIPLE_GROWTH`. -/
def oneGeojsonMultipleGrowthMsg : String := "ONE_GEOJSON_MULTIPLE_GROWTH"

/-- `IngestionErrMsgs.BASE_LOCATION_AT_TOP_OR_PER_GROWTH`. -/
def baseLocationMsg : String := "BASE_LOCATION_AT_TOP_OR_PER_GROWTH"

/-- `IngestionErrMsgs.FUELBEDS_AT_TOP_OR_PER_GROWTH`. -/
def fuelbedsMsg : String := "FUELBEDS_AT_TOP_OR_PER_GROWTH"

/-- `IngestionErrMsgs.NO_GROWTH_OR_BASE_LOCATION`. -/
def noGrowthOrBaseLocationMsg : String := "NO_GROWTH_OR_BASE_LOCATION"

/-- `IngestionErrMsgs.MULTIPLE_GROWTH_NO_PCT`. -/
def multipleGrowthNoPctMsg : String := "MULTIPLE_GROWTH_NO_PCT"

/-- A parsed `date_time` instant (year, month, day, hour, minute), the
result of `strptime(m.group(1), "%Y%m%d%H%M")`. -/
structure DT where
  year : Nat
  month : Nat
  day : Nat
  hour : Nat
  minute : Nat
deriving DecidableEq, Repr

/-- Gregorian leap-year rule (Python `datetime` uses the proleptic
Gregorian calendar). -/
def isLeap (y : Nat) : Bool :=
  y % 4 = 0 && (y % 100 ≠ 0 || y % 400 = 0)

/-- Days in a given month. -/
def daysInMonth (y m : Nat) : Nat :=
  if m = 2 then (if isLeap y then 29 else 28)
  else if m = 4 || m = 6 || m = 9 || m = 11 then 30
  else 31

/-- Validity as enforced by `strptime` / `datetime` construction
(`MINYEAR = 1`). -/
def dtValid (dt : DT) : Bool :=
  1 ≤ dt.year && dt.year ≤ 9999 && 1 ≤ dt.month && dt.month ≤ 12 &&
    1 ≤ dt.day && dt.day ≤ daysInMonth dt.year dt.month &&
    dt.hour ≤ 23 && dt.minute ≤ 59

/-- `start + datetime.timedelta(hours=24)`: the same time on the next
day; `none` models the `OverflowError` past year 9999. -/
def add24h (dt : DT) : Option DT :=
  if dt.day < daysInMonth dt.year dt.month then
    some { dt with day := dt.day + 1 }
  else if dt.month < 12 then
    some { dt with month := dt.month + 1, day := 1 }
  else if dt.year < 9999 then
    some { year := dt.year + 1, month := 1, day := 1,
           hour := dt.hour, minute := dt.minute }
  else
    none

/-- Decimal value of a list of digit characters. -/
def digitsVal (cs : List Char) : Nat :=
  cs.foldl (fun acc c => acc * 10 + (c.toNat - 48)) 0

/-- All characters are ASCII digits. -/
def allDigits (cs : List Char) : Bool := cs.all (fun c => c.isDigit)

/-- Interpret twelve digit characters as `%Y%m%d%H%M`. -/
def dtOfDigits (cs : List Char) : DT :=
  { year := digitsVal (cs.take 4)
    month := digitsVal ((cs.drop 4).take 2)
    day := digitsVal ((cs.drop 6).take 2)
    hour := digitsVal ((cs.drop 8).take 2)
    minute := digitsVal ((cs.drop 10).take 2) }

/-- Match the tail of the new-style `date_time` format:
`[+-]\d\x7b2\x7d:\d\x7b2\x7d` (a signed utc-offset suffix). -/
def isOffsetChars (cs : List Char) : Bool :=
  match cs with
  | [s, a, b, c, d, e] =>
    (s = '+' || s = '-') && a.isDigit && b.isDigit && c = ':' &&
      d.isDigit && e.isDigit
  | _ => false

/-- `DATE_TIME_MATCHER` then `OLD_DATE_TIME_MATCHER` of
`_ingest_special_field_date_time`, combined with the `strptime` parse of
the first twelve digits.  Returns the parsed start instant and, for the
new format only, the utc-offset suffix; `none` models both a failed regex
match (silently skipped) and a `strptime` error (caught and logged). -/
def parseDateTime (s : String) : Option (DT × Option String) :=
  let cs := s.toList
  let tryLen : Nat → Option (DT × Option String) := fun ndigits =>
    if cs.length = ndigits + 6 && allDigits (cs.take ndigits) &&
        isOffsetChars (cs.drop ndigits) then
      let dt := dtOfDigits (cs.take 12)
      if dtValid dt then
        some (dt, some (String.mk (cs.drop ndigits)))
      else none
    else none
  let tryOldLen : Nat → Option (DT × Option String) := fun ndigits =>
    if cs.length = ndigits + 1 && allDigits (cs.take ndigits) &&
        cs.getLast? = some 'Z' then
      let dt := dtOfDigits (cs.take 12)
      if dtValid dt then some (dt, none) else none
    else none
  match tryLen 12 with
  | some r => some r
  | none => match tryLen 14 with
    | some r => some r
    | none => match tryOldLen 12 with
      | some r => some r
      | none => tryOldLen 14

/-- Left-pad the decimal rendering of `n` with zeros to width `w`. -/
def padNum (w n : Nat) : String :=
  let s := toString n
  String.mk (List.replicate (w - s.length) '0') ++ s

/-- `GROWTH_TIME_FORMAT = "%Y-%m-%dT%H:%M:%S"` applied to a parsed
instant (seconds are always zero). -/
def fmtDT (dt : DT) : String :=
  padNum 4 dt.year ++ "-" ++ padNum 2 dt.month ++ "-" ++ padNum 2 dt.day ++
    "T" ++ padNum 2 dt.hour ++ ":" ++ padNum 2 dt.minute ++ ":00"

/-- Set (or overwrite) a key in an association list, as dict assignment. -/
def setOpt (l : List (String × String)) (k v : String) :
    List (String × String) :=
  if (getOpt l k).isSome then
    l.map (fun kv => if kv.1 = k then (k, v) else kv)
  else
    l ++ [(k, v)]

/-- The canonical fire after the `_ingest_*` handlers, before
`FirePostProcessor`: the `location` dict (always present), the optional
`growth` array (only set when nonempty) and optional `fuelbeds`. -/
structure FireMid where
  location : Loc
  growth : Option (List GrowthIn) := none
  fuelbeds : Option (List RawFuelbed) := none
deriving DecidableEq, Repr

/-- `_ingest_special_field_date_time` (ingestion.py lines 524-575):
runs only when the fire lacks a truthy `utc_offset` or lacks growth;
parses `date_time`, synthesizes a single 24-hour growth window when
there is none, and fills in `utc_offset` from the new-style suffix.
A parse failure (including the `OverflowError` of the 24-hour addition)
aborts the whole `try` block with no effect. -/
def ingestSpecialDateTime (r : RawFire) (f : FireMid) : FireMid :=
  if !(strTruthy (getOpt f.location.opt "utc_offset")) || f.growth.isNone then
    match (if strTruthy r.dateTime then r.dateTime else none) with
    | none => f
    | some s =>
      match parseDateTime s with
      | none => f
      | some (dt, off) =>
        let setOff : FireMid → FireMid := fun f1 =>
          match off with
          | some o =>
            if !(strTruthy (getOpt f1.location.opt "utc_offset")) then
              { f1 with location :=
                  { f1.location with opt := setOpt f1.location.opt "utc_offset" o } }
            else f1
          | none => f1
        if f.growth.isNone then
          match add24h dt with
          | some dtEnd =>
            let w : GrowthIn :=
              { start := some (fmtDT dt), endT := some (fmtDT dtEnd)
                pct := some 100, location := none, fuelbeds := none }
            setOff { f with growth := some [w] }
          | none => f
        else
          setOff f
  else f

/-- `FireIngester.ingest` up to (but not including) the
`FirePostProcessor` step: the nested-field handlers (run in `dir()`
order — `event_of`, `fuelbeds`, `growth`, `location`, `meta` — which are
mutually independent) followed by the special `date_time` handler. -/
def ingesterFn (r : RawFire) : FireMid :=
  ingestSpecialDateTime r
    { location := ingestLocation r
      growth := ingestGrowth r
      fuelbeds := ingestFuelbeds r }

/-- `FirePostProcessor._get_base_location(obj)` (ingestion.py lines
596-611).  Unlike `mkBaseLocObj`, the lat+lng+area branch tests all three
fields with `is not None` (no truthiness on `area`). -/
def getBaseLocation (l? : Option Loc) : Option Loc :=
  match l? with
  | none => none
  | some l =>
    if locTruthy l then
      match l.geojson with
      | some g =>
        if numTruthy l.area then
          some { geojson := some g, area := l.area }
        else if g.gtype ∈ geojsonAreaGeometries then
          some { geojson := some g }
        else none
      | none =>
        if l.latitude.isSome && l.longitude.isSome && l.area.isSome then
          some { latitude := l.latitude, longitude := l.longitude,
                 area := l.area }
        else none
    else none

/-- `FirePostProcessor._copy_optional_location_fields`: copy each optional
location field of `src` into `dst` only where `dst` does not already have
it (growth-level values win); no-op when `src` is falsy. -/
def copyOptLocFields (src dst : Loc) : Loc :=
  if locTruthy src then
    { dst with opt := dst.opt ++ optionalLocationFields.filterMap (fun k =>
        if locHasKey src k && !(locHasKey dst k) then
          match getOpt src.opt k with
          | some v => some (k, v)
          | none => none
        else none) }
  else dst

/-- A reconciled growth window: `pct` has been popped, `location` holds
exactly the base location plus optional fields. -/
structure GrowthOut where
  start : Option String := none
  endT : Option String := none
  location : Loc
  fuelbeds : Option (List RawFuelbed) := none
deriving DecidableEq, Repr

/-- The loop body of
`FirePostProcessor._process_growth_locations_and_fuelbeds` for one growth
object (ingestion.py lines 642-684), given the precomputed top-level base
location, the fire-level `location` dict, the fire-level fuelbeds and the
number of growth objects. -/
def processWindow (topBase : Option Loc) (fireLoc : Loc)
    (fireFbs : Option (List RawFuelbed)) (numG : Nat) (g : GrowthIn) :
    Except String GrowthOut :=
  let gPct := g.pct
  let gBase := getBaseLocation g.location
  if topBase.isSome == gBase.isSome then
    .error baseLocationMsg
  else if fbsTruthy fireFbs && fbsTruthy g.fuelbeds then
    .error fuelbedsMsg
  else
    let fbs : Option (List RawFuelbed) :=
      if fbsTruthy fireFbs then fireFbs else g.fuelbeds
    match topBase, gBase with
    | some b, _ =>
      if numTruthy fireLoc.area then
        let pick : Except String Rat :=
          if numTruthy gPct then .ok (gPct.getD 0)
          else if numG = 1 then .ok 100
          else .error multipleGrowthNoPctMsg
        match pick with
        | .error e => .error e
        | .ok p =>
          let loc1 := { b with area := b.area.map (fun a => a * p / 100) }
          .ok { start := g.start, endT := g.endT,
                location := copyOptLocFields fireLoc loc1, fuelbeds := fbs }
      else
        .ok { start := g.start, endT := g.endT,
              location := copyOptLocFields fireLoc b, fuelbeds := fbs }
    | none, some b =>
      let old := g.location.getD emptyLoc
      .ok { start := g.start, endT := g.endT,
            location := copyOptLocFields old b, fuelbeds := fbs }
    | none, none =>
      .error baseLocationMsg

/-- Process the growth objects in order, stopping at the first error. -/
def processWindows (topBase : Option Loc) (fireLoc : Loc)
    (fireFbs : Option (List RawFuelbed)) (numG : Nat) :
    List GrowthIn → Except String (List GrowthOut)
  | [] => .ok []
  | g :: gs =>
    match processWindow topBase fireLoc fireFbs numG g with
    | .error e => .error e
    | .ok w =>
      match processWindows topBase fireLoc fireFbs numG gs with
      | .error e => .error e
      | .ok ws => .ok (w :: ws)

/-- The reconciled fire: growth windows only; the top-level `location`
and `fuelbeds` keys have been popped (`none`). -/
structure FireOut where
  growth : List GrowthOut
  location : Option Loc := none
  fuelbeds : Option (List RawFuelbed) := none
deriving DecidableEq, Repr

/-- Truthiness of the optional growth array (`fire.get('growth')`). -/
def growthTruthy : Option (List GrowthIn) → Bool
  | some (_ :: _) => true
  | _ => false

/-- `FirePostProcessor._process_growth_locations_and_fuelbeds` followed by
the (vacuous) `_validate` step — i.e. `FirePostProcessor.process`
(ingestion.py lines 626-699). -/
def processFire (f : FireMid) : Except String FireOut :=
  match f.growth with
  | some (g :: gs) =>
    if f.location.geojson.isSome && decide (1 < (g :: gs).length) then
      .error oneGeojsonMultipleGrowthMsg
    else
      match processWindows (getBaseLocation (some f.location)) f.location
          f.fuelbeds (g :: gs).length (g :: gs) with
      | .error e => .error e
      | .ok ws => .ok { growth := ws, location := none, fuelbeds := none }
  | _ =>
    match getBaseLocation (some f.location) with
    | none => .error noGrowthOrBaseLocationMsg
    | some b =>
      let w : GrowthOut :=
        { start := none, endT := none
          location := copyOptLocFields f.location b
          fuelbeds := if fbsTruthy f.fuelbeds then f.fuelbeds else none }
      .ok { growth := [w], location := none, fuelbeds := none }

/-- `FireIngester.ingest`: the `NO_DATA` emptiness check, the ingest
handlers, then the post-processor. -/
def ingestFire (r : RawFire) : Except String FireOut :=
  if rawIsEmpty r then .error noDataMsg
  else processFire (ingesterFn r)

end Ing

namespace Ing

/-- Whether the geometry type is in the polygon family
(`GEOJSON_AREA_GEOMETRIES`). -/
def polyFamily : Option GeoJson → Bool
  | some g => g.gtype ∈ geojsonAreaGeometries
  | none => false

/-- The corrected condition under which `_get_base_location_object`
yields a defined location: a geometry with a truthy (present and
non-zero) area or a polygon-family type, or else latitude and longitude
present together with a truthy area. -/
def c3AmendedCond (gj : Option GeoJson) (lat lng area : Option Rat) : Bool :=
  (gj.isSome && (numTruthy area || polyFamily gj)) ||
    (gj.isNone && lat.isSome && lng.isSome && numTruthy area)

end Ing

/-- Claim C3, as stated, is false: with no geometry, latitude `1`,
longitude `2` and area `0`, all of latitude, longitude and area are
present, so the claim predicts a defined location — but
`_get_base_location_object` tests the area with Python truthiness
(`if area:`), so the zero area makes it return the empty dict. -/
theorem claim_C3_counterexample :
    Ing.mkBaseLocObj none (some 1) (some 2) (some 0) = Ing.emptyLoc ∧
      Ing.c3ClaimCond none (some 1) (some 2) (some 0) = true := by
  constructor
  · rfl
  · rfl

/-- Claim C3 (amended): the shared location-resolution rule
`_get_base_location_object` yields a defined (nonempty) location exactly
when a geometry is present together with an explicit *non-zero* area or
with a polygon-family type (`Polygon`, `MultiPolygon`), or else latitude
and longitude are present together with a *non-zero* area; any partial
combination, a zero area without polygon geometry, and a non-polygon
geometry without non-zero area yield the undefined (empty) location. -/
theorem claim_C3_amended (gj : Option Ing.GeoJson) (lat lng area : Option Rat) :
    Ing.baseDefined (Ing.mkBaseLocObj gj lat lng area) =
      Ing.c3AmendedCond gj lat lng area := by
  cases gj <;> cases lat <;> cases lng <;> cases area <;>
    simp only [Ing.mkBaseLocObj, Ing.c3AmendedCond, Ing.polyFamily,
      Ing.baseDefined, Ing.locTruthy, Ing.emptyLoc, Ing.numTruthy,
      Option.isSome_none, Option.isSome_some, Option.isNone_none,
      Option.isNone_some, Bool.false_and, Bool.and_false, Bool.true_and,
      Bool.and_true, Bool.false_or, Bool.or_false] <;>
    split_ifs <;>
    simp_all [Ing.locTruthy, Ing.emptyLoc]

namespace Ing

/-- Whether an `Except` result is an error. -/
def isErr : Except String FireOut → Bool
  | .error _ => true
  | .ok _ => false

/-- Whether a window-level `Except` result is an error. -/
def isErrW : Except String GrowthOut → Bool
  | .error _ => true
  | .ok _ => false

/-- A reconciled location carries exactly one base location: either
GeoJSON-based (no latitude/longitude) or lat+lng+area (no GeoJSON). -/
def exactlyOneBase (l : Loc) : Bool :=
  (l.geojson.isSome && l.latitude.isNone && l.longitude.isNone) ||
    (l.geojson.isNone && l.latitude.isSome && l.longitude.isSome &&
      l.area.isSome)

/-- The post-ingest invariant claim C2 asserts of an accepted fire: a
non-empty growth sequence, each window with exactly one base location,
and the fire-level `location` and `fuelbeds` keys removed. -/
def fireOutOk (f : FireOut) : Bool :=
  !f.growth.isEmpty && f.location.isNone && f.fuelbeds.isNone &&
    f.growth.all (fun w => exactlyOneBase w.location)

/-- The exact condition under which the loop body of
`_process_growth_locations_and_fuelbeds` raises for one growth object:
fire-level and growth-level base location both or neither defined, or
fuelbeds at both levels, or (fire-level base location with truthy
fire-level area) a missing/zero `pct` with more than one growth object. -/
def windowErrB (topBase : Option Loc) (fireLoc : Loc)
    (fireFbs : Option (List RawFuelbed)) (numG : Nat) (g : GrowthIn) : Bool :=
  (topBase.isSome == (getBaseLocation g.location).isSome) ||
    (fbsTruthy fireFbs && fbsTruthy g.fuelbeds) ||
    (topBase.isSome && numTruthy fireLoc.area && !numTruthy g.pct &&
      !(numG == 1))

/-- The exact condition under which `FirePostProcessor.process` raises:
no growth and no fire-level base location; or a fire-level GeoJSON with
more than one growth object; or some growth object satisfying
`windowErrB`. -/
def midErrCond (f : FireMid) : Bool :=
  match f.growth with
  | some (g :: gs) =>
    (f.location.geojson.isSome && decide (1 < (g :: gs).length)) ||
      (g :: gs).any (windowErrB (getBaseLocation (some f.location))
        f.location f.fuelbeds (g :: gs).length)
  | _ => (getBaseLocation (some f.location)).isNone

/-- The exact condition under which `FireIngester.ingest` raises: the
empty record, or `midErrCond` of the fire the ingest handlers build. -/
def ingestErrCond (r : RawFire) : Bool :=
  rawIsEmpty r || midErrCond (ingesterFn r)

/-- `processWindow` errors exactly under `windowErrB`. -/
theorem isErrW_processWindow (topBase : Option Loc) (fireLoc : Loc)
    (fireFbs : Option (List RawFuelbed)) (numG : Nat) (g : GrowthIn) :
    isErrW (processWindow topBase fireLoc fireFbs numG g) =
      windowErrB topBase fireLoc fireFbs numG g := by
  unfold processWindow windowErrB
  cases htb : topBase <;> cases hgb : getBaseLocation g.location <;>
    simp only [hgb, Option.isSome_none, Option.isSome_some] <;>
    split_ifs <;>
    simp_all [isErrW]

/-- `processWindows` errors exactly when some growth object satisfies
`windowErrB`. -/
theorem isErrW_processWindows (topBase : Option Loc) (fireLoc : Loc)
    (fireFbs : Option (List RawFuelbed)) (numG : Nat) (gs : List GrowthIn) :
    (match processWindows topBase fireLoc fireFbs numG gs with
      | .error _ => true
      | .ok _ => false) =
      gs.any (windowErrB topBase fireLoc fireFbs numG) := by
  induction gs with
  | nil => simp [processWindows]
  | cons g gs ih =>
    simp only [processWindows, List.any_cons]
    have hw := isErrW_processWindow topBase fireLoc fireFbs numG g
    cases hpw : processWindow topBase fireLoc fireFbs numG g with
    | error e =>
      rw [hpw] at hw
      simp [isErrW] at hw
      simp [← hw]
    | ok w =>
      rw [hpw] at hw
      simp [isErrW] at hw
      rw [← ih]
      cases hws : processWindows topBase fireLoc fireFbs numG gs <;>
        simp [← hw]

/-- `processFire` errors exactly under `midErrCond`. -/
theorem isErr_processFire (f : FireMid) :
    isErr (processFire f) = midErrCond f := by
  unfold processFire midErrCond
  cases hg : f.growth with
  | none =>
    cases htb : getBaseLocation (some f.location) <;> simp [isErr]
  | some gs =>
    cases gs with
    | nil =>
      cases htb : getBaseLocation (some f.location) <;> simp [isErr]
    | cons g gs =>
      dsimp only
      by_cases hgeo :
          (f.location.geojson.isSome && decide (1 < (g :: gs).length)) = true
      · rw [if_pos hgeo, hgeo]
        simp [isErr]
      · rw [if_neg hgeo]
        rw [Bool.not_eq_true] at hgeo
        rw [hgeo, Bool.false_or]
        have hpw := isErrW_processWindows (getBaseLocation (some f.location))
          f.location f.fuelbeds (g :: gs).length (g :: gs)
        rw [← hpw]
        cases hws : processWindows (getBaseLocation (some f.location))
            f.location f.fuelbeds (g :: gs).length (g :: gs) <;>
          simp [hws, isErr]

end Ing

namespace Ing

/-- Any base location `_get_base_location` returns has exactly one base:
GeoJSON-based or lat+lng+area. -/
theorem getBaseLocation_exactlyOneBase (x : Option Loc) (b : Loc)
    (h : getBaseLocation x = some b) : exactlyOneBase b = true := by
  unfold getBaseLocation at h
  cases x with
  | none => simp at h
  | some l =>
    dsimp only at h
    by_cases h1 : locTruthy l = true
    case neg => rw [if_neg h1] at h; simp at h
    case pos =>
    rw [if_pos h1] at h
    cases hgj : l.geojson with
    | some g =>
      rw [hgj] at h
      dsimp only at h
      split_ifs at h <;> (injection h with h; subst h; simp [exactlyOneBase])
    | none =>
      rw [hgj] at h
      dsimp only at h
      split_ifs at h with hc
      injection h with h
      subst h
      simp only [Bool.and_eq_true] at hc
      simp [exactlyOneBase, hc.1.1, hc.1.2, hc.2]

/-- Copying optional fields preserves the base-location shape. -/
theorem exactlyOneBase_copyOpt (s d : Loc) :
    exactlyOneBase (copyOptLocFields s d) = exactlyOneBase d := by
  unfold copyOptLocFields
  split_ifs <;> simp [exactlyOneBase]

/-- Scaling the area preserves the base-location shape. -/
theorem exactlyOneBase_mapArea (b : Loc) (fn : Rat → Rat) :
    exactlyOneBase { b with area := b.area.map fn } = exactlyOneBase b := by
  cases hb : b.area <;> simp [exactlyOneBase, hb]

/-- A window `processWindow` accepts carries exactly one base location,
provided any defined `topBase` does. -/
theorem processWindow_ok_exactlyOneBase (topBase : Option Loc) (fireLoc : Loc)
    (fireFbs : Option (List RawFuelbed)) (numG : Nat) (g : GrowthIn)
    (w : GrowthOut)
    (hbase : ∀ b, topBase = some b → exactlyOneBase b = true)
    (h : processWindow topBase fireLoc fireFbs numG g = .ok w) :
    exactlyOneBase w.location = true := by
  unfold processWindow at h
  dsimp only at h
  cases htb : topBase with
  | some b =>
    rw [htb] at h
    have hb := hbase b htb
    cases hgb : getBaseLocation g.location with
    | some b2 =>
      rw [hgb] at h
      simp at h
    | none =>
      rw [hgb] at h
      dsimp only at h
      split_ifs at h <;>
        first
          | exact Except.noConfusion h
          | (try dsimp only at h
             first
               | exact Except.noConfusion h
               | (injection h with h
                  rw [← h]
                  simp [exactlyOneBase_copyOpt, exactlyOneBase_mapArea, hb]))
  | none =>
    rw [htb] at h
    cases hgb : getBaseLocation g.location with
    | some b2 =>
      rw [hgb] at h
      dsimp only at h
      split_ifs at h <;>
        first
          | exact Except.noConfusion h
          | (try dsimp only at h
             first
               | exact Except.noConfusion h
               | (injection h with h
                  rw [← h]
                  simp [exactlyOneBase_copyOpt,
                    getBaseLocation_exactlyOneBase g.location b2 hgb]))
    | none =>
      rw [hgb] at h
      simp at h

end Ing

namespace Ing

/-- All windows `processWindows` accepts carry exactly one base location,
and none are lost. -/
theorem processWindows_ok (topBase : Option Loc) (fireLoc : Loc)
    (fireFbs : Option (List RawFuelbed)) (numG : Nat) (gs : List GrowthIn)
    (ws : List GrowthOut)
    (hbase : ∀ b, topBase = some b → exactlyOneBase b = true)
    (h : processWindows topBase fireLoc fireFbs numG gs = .ok ws) :
    ws.length = gs.length ∧
      ws.all (fun w => exactlyOneBase w.location) = true := by
  induction gs generalizing ws with
  | nil =>
    unfold processWindows at h
    injection h with h
    subst h
    simp
  | cons g gs ih =>
    unfold processWindows at h
    cases hpw : processWindow topBase fireLoc fireFbs numG g with
    | error e => rw [hpw] at h; exact Except.noConfusion h
    | ok w =>
      rw [hpw] at h
      cases hws : processWindows topBase fireLoc fireFbs numG gs with
      | error e => rw [hws] at h; exact Except.noConfusion h
      | ok ws0 =>
        rw [hws] at h
        injection h with h
        subst h
        have hrec := ih ws0 hws
        have hw := processWindow_ok_exactlyOneBase topBase fireLoc fireFbs
          numG g w hbase hpw
        simp [hrec.1, hrec.2, hw]

/-- A fire `processFire` accepts satisfies the post-ingest invariant:
non-empty growth, one base location per window, fire-level `location`
and `fuelbeds` removed. -/
theorem processFire_ok (f : FireMid) (out : FireOut)
    (h : processFire f = .ok out) : fireOutOk out = true := by
  have hbase : ∀ b, getBaseLocation (some f.location) = some b →
      exactlyOneBase b = true := fun b hb =>
    getBaseLocation_exactlyOneBase (some f.location) b hb
  unfold processFire at h
  cases hg : f.growth with
  | some gs =>
    cases gs with
    | nil =>
      rw [hg] at h
      dsimp only at h
      cases htb : getBaseLocation (some f.location) with
      | none => rw [htb] at h; exact Except.noConfusion h
      | some b =>
        rw [htb] at h
        dsimp only at h
        injection h with h
        rw [← h]
        simp [fireOutOk, exactlyOneBase_copyOpt, hbase b htb]
    | cons g gs =>
      rw [hg] at h
      dsimp only at h
      split_ifs at h
      cases hws : processWindows (getBaseLocation (some f.location))
          f.location f.fuelbeds (g :: gs).length (g :: gs) with
      | error e => rw [hws] at h; exact Except.noConfusion h
      | ok ws =>
        rw [hws] at h
        injection h with h
        rw [← h]
        have hrec := processWindows_ok (getBaseLocation (some f.location))
          f.location f.fuelbeds (g :: gs).length (g :: gs) ws hbase hws
        have hne : ws ≠ [] := by
          intro hcon
          rw [hcon] at hrec
          simp at hrec
        simp [fireOutOk, hrec.2, hne]
  | none =>
    rw [hg] at h
    dsimp only at h
    cases htb : getBaseLocation (some f.location) with
    | none => rw [htb] at h; exact Except.noConfusion h
    | some b =>
      rw [htb] at h
      dsimp only at h
      injection h with h
      rw [← h]
      simp [fireOutOk, exactlyOneBase_copyOpt, hbase b htb]

end Ing

namespace Ing

/-- The error condition exactly as claim C2 states it, evaluated on the
fire built by the ingest handlers: some growth window has the fire-level
base location and its own base location both or neither defined, or
there are no growth windows and no fire-level base location. -/
def c2ClaimCond (r : RawFire) : Bool :=
  match (ingesterFn r).growth with
  | some (g :: gs) =>
    (g :: gs).any (fun g =>
      (getBaseLocation (some (ingesterFn r).location)).isSome ==
        (getBaseLocation g.location).isSome)
  | _ => (getBaseLocation (some (ingesterFn r).location)).isNone

/-- A record with a fire-level Polygon GeoJSON location and two growth
windows carrying no locations of their own. -/
def c2CexRaw : RawFire :=
  { location := some { geojson := some { gtype := "Polygon" } }
    growth := some
      [{ start := some "2014-05-29T17:00:00"
         endT := some "2014-05-30T17:00:00" },
       { start := some "2014-05-30T17:00:00"
         endT := some "2014-05-31T17:00:00" }] }

/-- The canonical-shape record used to witness the amended claim C2. -/
def c2WitnessRaw : RawFire :=
  { growth := some
      [{ start := some "2014-05-29T17:00:00"
         endT := some "2014-05-30T17:00:00"
         location := some
           { latitude := some 37, longitude := some (-119)
             area := some 10000
             opt := [("ecoregion", "western"), ("utc_offset", "-07:00")] } }] }

/-- The canonical fire `ingestFire` produces for `c2WitnessRaw`. -/
def c2WitnessOut : FireOut :=
  { growth :=
      [{ start := some "2014-05-29T17:00:00"
         endT := some "2014-05-30T17:00:00"
         location :=
           { geojson := none, latitude := some 37, longitude := some (-119)
             area := some 10000
             opt := [("ecoregion", "western"), ("utc_offset", "-07:00")] }
         fuelbeds := none }]
    location := none
    fuelbeds := none }

end Ing

/-- Claim C2, as stated, is false: for `c2CexRaw` — a fire-level Polygon
GeoJSON with two growth windows carrying no locations of their own —
every growth window has the fire-level base location defined and its own
base location undefined (exactly one), and growth windows exist, so the
claim's "exactly when" condition predicts acceptance; but ingestion
raises `ONE_GEOJSON_MULTIPLE_GROWTH`. -/
theorem claim_C2_counterexample :
    Ing.ingestFire Ing.c2CexRaw =
        .error Ing.oneGeojsonMultipleGrowthMsg ∧
      Ing.c2ClaimCond Ing.c2CexRaw = false := by
  exact ⟨rfl, rfl⟩

/-- Claim C2 (amended): every record ingestion accepts yields a fire with
a non-empty growth sequence, each window carrying exactly one base
location (GeoJSON-based or lat+lng+area), and the fire-level `location`
and `fuelbeds` keys removed; and ingestion raises exactly when the
record is empty, or — on the fire built by the ingest handlers — the
fire-level location has a GeoJSON and there is more than one growth
window, or some growth window has the fire-level and its own base
location both or neither defined, or fuelbeds are defined at both
levels, or the fire-level base location carries a truthy area and some
of several growth windows lacks a truthy percent share, or there are no
growth windows and no fire-level base location. -/
theorem claim_C2_amended (r : Ing.RawFire) :
    (∀ f, Ing.ingestFire r = .ok f → Ing.fireOutOk f = true) ∧
      Ing.isErr (Ing.ingestFire r) = Ing.ingestErrCond r := by
  constructor
  · intro f h
    unfold Ing.ingestFire at h
    split_ifs at h
    exact Ing.processFire_ok (Ing.ingesterFn r) f h
  · unfold Ing.ingestFire Ing.ingestErrCond
    split_ifs with h
    · simp [Ing.isErr, h]
    · have hb : Ing.rawIsEmpty r = false := by
        rw [Bool.eq_false_iff]
        exact h
      rw [hb, Bool.false_or]
      exact Ing.isErr_processFire (Ing.ingesterFn r)

/-- Witness for the amended claim C2 at the canonical-shape record
`c2WitnessRaw`: ingestion accepts it and the resulting fire satisfies
the post-ingest invariant. -/
theorem claim_C2_witness : Ing.fireOutOk Ing.c2WitnessOut = true :=
  (claim_C2_amended Ing.c2WitnessRaw).1 Ing.c2WitnessOut rfl

namespace Ing

/-- Copying optional fields never touches the `area` entry. -/
theorem copyOptLocFields_area (s d : Loc) :
    (copyOptLocFields s d).area = d.area := by
  unfold copyOptLocFields
  split_ifs <;> rfl

/-- The percent share `_process_growth_locations_and_fuelbeds` applies to
one of `n` growth objects: its own truthy `pct`, defaulting to `100` for
a single growth object, and undefined otherwise. -/
def pctShare (n : Nat) (g : GrowthIn) : Option Rat :=
  if numTruthy g.pct then some (g.pct.getD 0)
  else if n = 1 then some 100 else none

/-- The window produced for one growth object from a fire-level base
location `b` scaled by percent share `p`. -/
def scaledWindow (b fireLoc : Loc) (fireFbs : Option (List RawFuelbed))
    (g : GrowthIn) (p : Rat) : GrowthOut :=
  { start := g.start, endT := g.endT
    location := copyOptLocFields fireLoc
      { b with area := b.area.map (fun x => x * p / 100) }
    fuelbeds := if fbsTruthy fireFbs then fireFbs else g.fuelbeds }

/-- The loop body for one growth object when the fire-level base
location is defined, the fire-level area is truthy and the growth object
carries neither a base location nor fuelbeds: the area is scaled by the
percent share, or `MULTIPLE_GROWTH_NO_PCT` is raised when the share is
undefined. -/
theorem processWindow_topBase (b fireLoc : Loc)
    (fireFbs : Option (List RawFuelbed)) (n : Nat) (g : GrowthIn)
    (hgb : getBaseLocation g.location = none)
    (hfb : fbsTruthy g.fuelbeds = false)
    (hfl : numTruthy fireLoc.area = true) :
    processWindow (some b) fireLoc fireFbs n g =
      match pctShare n g with
      | some p => .ok (scaledWindow b fireLoc fireFbs g p)
      | none => .error multipleGrowthNoPctMsg := by
  cases hgp : numTruthy g.pct <;> by_cases hn : n = 1 <;>
    simp [processWindow, pctShare, scaledWindow, hgb, hfb, hfl, hgp, hn]

/-- Over a whole growth array (fire-level base location defined, truthy
fire-level area, growth objects without own base locations or fuelbeds):
if every object has a defined percent share the loop succeeds and scales
each area by that share; otherwise it raises `MULTIPLE_GROWTH_NO_PCT`. -/
theorem processWindows_scale (b fireLoc : Loc)
    (fireFbs : Option (List RawFuelbed)) (n : Nat) (gs : List GrowthIn)
    (hfl : numTruthy fireLoc.area = true)
    (hgs : gs.all (fun g =>
      (getBaseLocation g.location).isNone && !fbsTruthy g.fuelbeds) = true) :
    (gs.all (fun g => (pctShare n g).isSome) = true →
      ∃ ws, processWindows (some b) fireLoc fireFbs n gs = .ok ws ∧
        ws.map (fun w => w.location.area) =
          gs.map (fun g =>
            b.area.map (fun x => x * (pctShare n g).getD 0 / 100))) ∧
    (gs.all (fun g => (pctShare n g).isSome) = false →
      processWindows (some b) fireLoc fireFbs n gs =
        .error multipleGrowthNoPctMsg) := by
  induction gs with
  | nil =>
    constructor
    · intro _
      exact ⟨[], rfl, rfl⟩
    · intro h
      simp at h
  | cons g gs ih =>
    simp only [List.all_cons, Bool.and_eq_true] at hgs
    obtain ⟨⟨hgb, hfb⟩, htail⟩ := hgs
    rw [Option.isNone_iff_eq_none] at hgb
    rw [Bool.not_eq_true'] at hfb
    have hhead := processWindow_topBase b fireLoc fireFbs n g hgb hfb hfl
    have ihs := ih htail
    constructor
    · intro hall
      simp only [List.all_cons, Bool.and_eq_true] at hall
      obtain ⟨hp, hrest⟩ := hall
      obtain ⟨p, hps⟩ := Option.isSome_iff_exists.mp hp
      obtain ⟨ws, hws, hmap⟩ := ihs.1 hrest
      refine ⟨scaledWindow b fireLoc fireFbs g p :: ws, ?_, ?_⟩
      · unfold processWindows
        rw [hhead, hps]
        dsimp only
        rw [hws]
      · simp only [List.map_cons, hmap, hps]
        simp [scaledWindow, copyOptLocFields_area]
    · intro hne
      simp only [List.all_cons] at hne
      rw [Bool.and_eq_false_iff] at hne
      unfold processWindows
      rw [hhead]
      cases hps : pctShare n g with
      | none =>
        rfl
      | some p =>
        dsimp only
        rw [ihs.2 ?_]
        rcases hne with hne | hne
        · rw [hps] at hne
          simp at hne
        · exact hne

end Ing

namespace Ing

/-- A record whose fire-level location carries an area (the legacy
lat+lng+area shape) while its growth window also carries its own base
location. -/
def c7CexRaw : RawFire :=
  { location := some
      { latitude := some 1, longitude := some 2, area := some 3 }
    growth := some
      [{ location := some
          { latitude := some 4, longitude := some 5, area := some 6 } }] }

/-- A reconciler input with a fire-level lat+lng+area location and two
growth objects lacking percent shares. -/
def c7WitnessG1 : GrowthIn := { start := some "2015-01-20T19:00:00" }

/-- Second growth object of the C7 witness. -/
def c7WitnessG2 : GrowthIn := { start := some "2015-01-21T19:00:00" }

/-- The C7 witness fire. -/
def c7WitnessMid : FireMid :=
  { location :=
      { latitude := some 25, longitude := some (-77), area := some 100 }
    growth := some [c7WitnessG1, c7WitnessG2] }

end Ing

/-- Claim C7, as stated, is false: `c7CexRaw` has a fire-level location
carrying an area and has a growth window, so the claim demands that
reconciliation scale the window's area by its percent share — but
because the window also carries its own base location, ingestion instead
raises `BASE_LOCATION_AT_TOP_OR_PER_GROWTH` and produces nothing. -/
theorem claim_C7_counterexample :
    (Ing.ingesterFn Ing.c7CexRaw).location.area = some 3 ∧
      Ing.growthTruthy (Ing.ingesterFn Ing.c7CexRaw).growth = true ∧
      Ing.ingestFire Ing.c7CexRaw = .error Ing.baseLocationMsg := by
  exact ⟨rfl, rfl, rfl⟩

/-- Claim C7 (amended): for every fire whose fire-level base location is
lat+lng with a non-zero area and whose growth windows carry neither base
locations nor fuelbeds of their own, reconciliation sets each window's
area to the fire-level area scaled by that window's percent share
divided by 100, where a single window lacking a (truthy) share defaults
to 100 percent; and when there is more than one window and some window
lacks a share, it raises `MULTIPLE_GROWTH_NO_PCT`. -/
theorem claim_C7_amended (f : Ing.FireMid) (g0 : Ing.GrowthIn)
    (gs : List Ing.GrowthIn) (a : Rat)
    (hg : f.growth = some (g0 :: gs))
    (hgeo : f.location.geojson = none)
    (hlat : f.location.latitude.isSome = true)
    (hlng : f.location.longitude.isSome = true)
    (harea : f.location.area = some a)
    (ha : a ≠ 0)
    (hgs : (g0 :: gs).all (fun g =>
      (Ing.getBaseLocation g.location).isNone &&
        !Ing.fbsTruthy g.fuelbeds) = true) :
    ((g0 :: gs).all
        (fun g => (Ing.pctShare (g0 :: gs).length g).isSome) = true →
      ∃ out, Ing.processFire f = .ok out ∧
        out.growth.map (fun w => w.location.area) =
          (g0 :: gs).map (fun g =>
            some (a * (Ing.pctShare (g0 :: gs).length g).getD 0 / 100))) ∧
    ((g0 :: gs).all
        (fun g => (Ing.pctShare (g0 :: gs).length g).isSome) = false →
      Ing.processFire f = .error Ing.multipleGrowthNoPctMsg) := by
  have hfl : Ing.numTruthy f.location.area = true := by
    rw [harea]
    simp [Ing.numTruthy, ha]
  have hlt : Ing.locTruthy f.location = true := by
    simp [Ing.locTruthy, harea]
  have htb : Ing.getBaseLocation (some f.location) =
      some { geojson := none, latitude := f.location.latitude
             longitude := f.location.longitude, area := f.location.area } := by
    unfold Ing.getBaseLocation
    dsimp only
    rw [if_pos hlt, hgeo]
    dsimp only
    rw [if_pos (by simp [hlat, hlng, harea])]
  have hscale := Ing.processWindows_scale
    { geojson := none, latitude := f.location.latitude
      longitude := f.location.longitude, area := f.location.area }
    f.location f.fuelbeds (g0 :: gs).length (g0 :: gs) hfl hgs
  have hpf : ∀ (z : Except String (List Ing.GrowthOut)),
      Ing.processWindows (Ing.getBaseLocation (some f.location)) f.location
        f.fuelbeds (g0 :: gs).length (g0 :: gs) = z →
      Ing.processFire f =
        match z with
        | .error e => .error e
        | .ok ws => .ok { growth := ws, location := none, fuelbeds := none } := by
    intro z hz
    unfold Ing.processFire
    rw [hg]
    dsimp only
    rw [if_neg (by simp [hgeo])]
    rw [hz]
  constructor
  · intro hall
    obtain ⟨ws, hws, hmap⟩ := hscale.1 hall
    rw [htb] at hpf
    refine ⟨{ growth := ws, location := none, fuelbeds := none }, ?_, ?_⟩
    · exact hpf (.ok ws) hws
    · simpa [harea] using hmap
  · intro hne
    have herr := hscale.2 hne
    rw [htb] at hpf
    exact hpf (.error Ing.multipleGrowthNoPctMsg) herr

/-- Witness for the amended claim C7: a fire-level lat+lng+area location
with two growth windows and no percent shares raises
`MULTIPLE_GROWTH_NO_PCT`. -/
theorem claim_C7_witness :
    Ing.processFire Ing.c7WitnessMid = .error Ing.multipleGrowthNoPctMsg :=
  (claim_C7_amended Ing.c7WitnessMid Ing.c7WitnessG1 [Ing.c7WitnessG2] 100
    rfl rfl rfl rfl rfl (by norm_num) (by decide)).2 (by decide)

namespace FM

/-- Modelled from the spec: a growth window as seen by the Collection
Manager's merger and filter (spec section 3 and the expectations of
`test_fires.py`): a local start time, and a location restricted to the
fields the filters read (country, latitude, longitude, area). -/
structure MGrowth where
  start : Option String := none
  country : Option String := none
  latitude : Option Rat := none
  longitude : Option Rat := none
  area : Option Rat := none
deriving DecidableEq, Repr

/-- Modelled from the spec: a canonical Fire record held by the
Collection Manager — identifier, `type`, `fuel_type`, optional event
reference (its identifier) and the ordered growth sequence
(`bluesky/models/fires.py` is not among the sources). -/
structure MFire where
  fid : String
  ftype : String := "wildfire"
  fuelType : String := "natural"
  event : Option String := none
  growth : List MGrowth := []
deriving DecidableEq, Repr

/-- `FiresMerger.FIRE_TYPE_MISMATCH_MSG`. -/
def fireTypeMismatchMsg : String := "FIRE_TYPE_MISMATCH"

/-- `FiresMerger.FUEL_TYPE_MISMATCH_MSG`. -/
def fuelTypeMismatchMsg : String := "FUEL_TYPE_MISMATCH"

/-- `FiresMerger.EVENT_MISMATCH_MSG`. -/
def eventMismatchMsg : String := "EVENT_MISMATCH"

/-- `FiresMerger.GROWTH_FOR_BOTH_OR_NONE_MSG`. -/
def growthForBothOrNoneMsg : String := "GROWTH_FOR_BOTH_OR_NONE"

/-- Sort key for growth windows: the start time, with windows lacking a
start keyed by the empty string so that the stable sort keeps them in
arrival order. -/
def startKey (g : MGrowth) : String := g.start.getD ""

/-- Ascending comparison by start time. -/
def growthLE (g1 g2 : MGrowth) : Bool := decide (startKey g1 ≤ startKey g2)

/-- The distinct fire identifiers in order of first occurrence
(merge groups by identifier). -/
def idsOf (fires : List MFire) : List String :=
  fires.foldl (fun acc f => if f.fid ∈ acc then acc else acc ++ [f.fid]) []

/-- Modelled from the spec (section 4.4): the merge-compatibility check
for one identifier group — all members must agree on `type`,
`fuel_type` and event reference, and growth presence must be all-or-none.
Returns the first violation. -/
def checkGroup : List MFire → Option String
  | [] => none
  | f :: rest =>
    if rest.any (fun f2 => f2.ftype ≠ f.ftype) then
      some fireTypeMismatchMsg
    else if rest.any (fun f2 => f2.fuelType ≠ f.fuelType) then
      some fuelTypeMismatchMsg
    else if rest.any (fun f2 => f2.event ≠ f.event) then
      some eventMismatchMsg
    else if (f :: rest).any (fun f2 => f2.growth.isEmpty) &&
        (f :: rest).any (fun f2 => !f2.growth.isEmpty) then
      some growthForBothOrNoneMsg
    else
      none

/-- Modelled from the spec: merge one compatible group into a single
fire whose growth sequence is the concatenation of every member's
growth windows sorted ascending by start time (stable). -/
def mergeGroup (f : MFire) (rest : List MFire) : MFire :=
  { f with growth :=
      (((f :: rest).map (fun x => x.growth)).flatten).mergeSort growthLE }

/-- Handle one identifier group: groups of size 1 pass through
unchanged; larger groups merge when compatible; otherwise the whole
group is left unmerged in skip mode, or the error propagates. -/
def mergeOne (skip : Bool) : List MFire → Except String (List MFire)
  | [] => .ok []
  | [f] => .ok [f]
  | f :: rest =>
    match checkGroup (f :: rest) with
    | none => .ok [mergeGroup f rest]
    | some msg => if skip then .ok (f :: rest) else .error msg

/-- Process the identifier groups in first-occurrence order. -/
def mergeFiresGo (skip : Bool) (fires : List MFire) :
    List String → Except String (List MFire)
  | [] => .ok []
  | i :: is =>
    match mergeOne skip (fires.filter (fun f => f.fid = i)),
        mergeFiresGo skip fires is with
    | .error e, _ => .error e
    | _, .error e => .error e
    | .ok xs, .ok ys => .ok (xs ++ ys)

/-- Modelled from the spec (section 4.4): `FiresMerger.merge` /
`FiresManager.merge_fires`, grouping the collection by identifier. -/
def mergeFires (skip : Bool) (fires : List MFire) :
    Except String (List MFire) :=
  mergeFiresGo skip fires (idsOf fires)

end FM

namespace FM

/-- Folding the id-collection step over fires that all carry an id
already in the accumulator leaves the accumulator unchanged. -/
theorem idsOf_aux (i : String) (l : List MFire) (acc : List String)
    (hl : ∀ f ∈ l, f.fid = i) (hacc : i ∈ acc) :
    l.foldl (fun acc f => if f.fid ∈ acc then acc else acc ++ [f.fid]) acc =
      acc := by
  induction l generalizing acc with
  | nil => rfl
  | cons f l ih =>
    simp only [List.foldl_cons]
    rw [if_pos (by rw [hl f (by simp)]; exact hacc)]
    exact ih acc (fun f2 h2 => hl f2 (List.mem_cons_of_mem f h2)) hacc

/-- A collection whose fires all share one identifier has exactly that
identifier group. -/
theorem idsOf_const (f0 : MFire) (rest : List MFire)
    (hid : ∀ f ∈ rest, f.fid = f0.fid) :
    idsOf (f0 :: rest) = [f0.fid] := by
  unfold idsOf
  simp only [List.foldl_cons]
  rw [if_neg (List.not_mem_nil _)]
  simp only [List.nil_append]
  exact idsOf_aux f0.fid rest [f0.fid] hid (by simp)

/-- `growthLE` is transitive. -/
theorem growthLE_trans (a b c : MGrowth) (h1 : growthLE a b = true)
    (h2 : growthLE b c = true) : growthLE a c = true := by
  simp only [growthLE, decide_eq_true_eq] at h1 h2 ⊢
  exact le_trans h1 h2

/-- `growthLE` is total. -/
theorem growthLE_total (a b : MGrowth) :
    (growthLE a b || growthLE b a) = true := by
  simp only [growthLE, Bool.or_eq_true, decide_eq_true_eq]
  exact le_total (startKey a) (startKey b)

end FM

/-- Claim C1 (modelled from the spec; `bluesky/models/fires.py` is not
among the sources): merge groups fires by identifier.  For a collection
forming one identifier group: (a) when every member shares `type`,
`fuel_type` and event reference and every member has growth windows, the
group merges into one fire — same identifier — whose growth sequence is
a permutation of the concatenation of every member's growth windows,
sorted ascending by start time; (b) a mismatch in `type`, `fuel_type`,
event, or a mix of members with and without growth, yields the
data-validation error in fail-fast mode and leaves every member
unmerged as separate fires in skip mode; (c) a group of size 1 passes
through unchanged. -/
theorem claim_C1 (skip : Bool) (f0 : FM.MFire) (rest : List FM.MFire)
    (hid : ∀ f ∈ rest, f.fid = f0.fid) :
    ((rest ≠ []) →
      rest.all (fun f => f.ftype == f0.ftype) = true →
      rest.all (fun f => f.fuelType == f0.fuelType) = true →
      rest.all (fun f => f.event == f0.event) = true →
      (f0 :: rest).all (fun f => !f.growth.isEmpty) = true →
      FM.mergeFires skip (f0 :: rest) = .ok [FM.mergeGroup f0 rest] ∧
        (FM.mergeGroup f0 rest).fid = f0.fid ∧
        (FM.mergeGroup f0 rest).growth.Perm
          (((f0 :: rest).map (fun f => f.growth)).flatten) ∧
        List.Pairwise (fun g1 g2 => FM.growthLE g1 g2 = true)
          (FM.mergeGroup f0 rest).growth) ∧
    (∀ msg, rest ≠ [] → FM.checkGroup (f0 :: rest) = some msg →
      FM.mergeFires false (f0 :: rest) = .error msg ∧
        FM.mergeFires true (f0 :: rest) = .ok (f0 :: rest)) ∧
    (rest = [] → FM.mergeFires skip (f0 :: rest) = .ok [f0]) := by
  have hflt : (f0 :: rest).filter (fun f => f.fid = f0.fid) = f0 :: rest := by
    rw [List.filter_eq_self]
    intro f hf
    simp only [decide_eq_true_eq]
    rcases List.mem_cons.mp hf with hf | hf
    · rw [hf]
    · exact hid f hf
  have hids := FM.idsOf_const f0 rest hid
  have hrun : ∀ (sk : Bool), FM.mergeFires sk (f0 :: rest) =
      match FM.mergeOne sk (f0 :: rest) with
      | .error e => .error e
      | .ok xs => .ok xs := by
    intro sk
    unfold FM.mergeFires
    rw [hids]
    unfold FM.mergeFiresGo
    rw [hflt]
    cases hmo : FM.mergeOne sk (f0 :: rest) with
    | error e => simp [FM.mergeFiresGo]
    | ok xs => simp [FM.mergeFiresGo]
  refine ⟨?_, ?_, ?_⟩
  · intro hne hty hfu hev hgr
    simp only [List.all_eq_true, beq_iff_eq] at hty hfu hev
    have hchk : FM.checkGroup (f0 :: rest) = none := by
      unfold FM.checkGroup
      dsimp only
      have h1 : (rest.any fun f2 => f2.ftype ≠ f0.ftype) = false := by
        simp only [List.any_eq_false, decide_eq_true_eq]
        intro f hf
        simp [hty f hf]
      have h2 : (rest.any fun f2 => f2.fuelType ≠ f0.fuelType) = false := by
        simp only [List.any_eq_false, decide_eq_true_eq]
        intro f hf
        simp [hfu f hf]
      have h3 : (rest.any fun f2 => f2.event ≠ f0.event) = false := by
        simp only [List.any_eq_false, decide_eq_true_eq]
        intro f hf
        simp [hev f hf]
      have h4 : ((f0 :: rest).any fun f2 => f2.growth.isEmpty) = false := by
        simp only [List.any_eq_false]
        intro f hf
        have := (List.all_eq_true.mp hgr) f hf
        simpa using this
      rw [h1, h2, h3, h4]
      rfl
    cases rest with
    | nil => exact absurd rfl hne
    | cons r rs =>
      refine ⟨?_, rfl, ?_, ?_⟩
      · rw [hrun skip]
        unfold FM.mergeOne
        dsimp only
        rw [hchk]
      · exact List.mergeSort_perm _ _
      · exact List.sorted_mergeSort
          (fun a b c h1 h2 => FM.growthLE_trans a b c h1 h2)
          (fun a b => FM.growthLE_total a b) _
  · intro msg hne hchk
    cases rest with
    | nil => exact absurd rfl hne
    | cons r rs =>
      constructor
      · rw [hrun false]
        unfold FM.mergeOne
        dsimp only
        rw [hchk]
        rfl
      · rw [hrun true]
        unfold FM.mergeOne
        dsimp only
        rw [hchk]
        rfl
  · intro hrest
    subst hrest
    rw [hrun skip]
    rfl

namespace FM

/-- Concrete fires for the C1 witness: same identifier, different
`type`. -/
def c1A : MFire :=
  { fid := "1", ftype := "rx", growth := [{ start := some "a" }] }

/-- Second C1 witness fire. -/
def c1B : MFire :=
  { fid := "1", ftype := "wf", growth := [{ start := some "b" }] }

end FM

/-- Witness for claim C1 at two concrete fires sharing an identifier but
differing in `type`: fail-fast mode raises the type-mismatch error and
skip mode leaves both unmerged. -/
theorem claim_C1_witness :
    FM.mergeFires false [FM.c1A, FM.c1B] = .error FM.fireTypeMismatchMsg ∧
      FM.mergeFires true [FM.c1A, FM.c1B] = .ok [FM.c1A, FM.c1B] :=
  (claim_C1 false FM.c1A [FM.c1B] (by decide)).2.1 FM.fireTypeMismatchMsg
    (by decide) rfl

namespace FM

/-- `FireGrowthFilter.FilterError` messages (constants named after the
class attributes of `bluesky/models/fires.py`, per `test_fires.py`). -/
def noFiltersMsg : String := "NO_FILTERS"

/-- `FireGrowthFilter.MISSING_FILTER_CONFIG_MSG`. -/
def missingFilterConfigMsg : String := "MISSING_FILTER_CONFIG"

/-- `FireGrowthFilter.SPECIFY_WHITELIST_OR_BLACKLIST_MSG`. -/
def specifyWhitelistOrBlacklistMsg : String := "SPECIFY_WHITELIST_OR_BLACKLIST"

/-- `FireGrowthFilter.SPECIFY_BOUNDARY_MSG`. -/
def specifyBoundaryMsg : String := "SPECIFY_BOUNDARY"

/-- `FireGrowthFilter.INVALID_BOUNDARY_FIELDS_MSG`. -/
def invalidBoundaryFieldsMsg : String := "INVALID_BOUNDARY_FIELDS"

/-- `FireGrowthFilter.INVALID_BOUNDARY_MSG`. -/
def invalidBoundaryMsg : String := "INVALID_BOUNDARY"

/-- `FireGrowthFilter.SPECIFY_MIN_OR_MAX_MSG`. -/
def specifyMinOrMaxMsg : String := "SPECIFY_MIN_OR_MAX"

/-- `FireGrowthFilter.INVALID_MIN_MAX_MUST_BE_POS_MSG`. -/
def invalidMinMaxMustBePosMsg : String := "INVALID_MIN_MAX_MUST_BE_POS"

/-- `FireGrowthFilter.INVALID_MIN_MUST_BE_LTE_MAX_MSG`. -/
def invalidMinMustBeLteMaxMsg : String := "INVALID_MIN_MUST_BE_LTE_MAX"

/-- `FireGrowthFilter.MISSING_FIRE_LAT_LNG_MSG`. -/
def missingFireLatLngMsg : String := "MISSING_FIRE_LAT_LNG"

/-- `FireGrowthFilter.MISSING_GROWTH_AREA_MSG`. -/
def missingGrowthAreaMsg : String := "MISSING_GROWTH_AREA"

/-- `FireGrowthFilter.NEGATIVE_GROWTH_AREA_MSG`. -/
def negativeGrowthAreaMsg : String := "NEGATIVE_GROWTH_AREA"

/-- The `filter > country` configuration: optional whitelist/blacklist
(possibly explicitly null), plus a flag for any other keys (which make
the dict nonempty without supplying a list). -/
structure CountryCfg where
  whitelist : Option (List String) := none
  blacklist : Option (List String) := none
  extra : Bool := false
deriving DecidableEq, Repr

/-- One boundary corner; a missing `lat`/`lng` key is an invalid-fields
error. -/
structure BoundaryPt where
  lat : Option Rat := none
  lng : Option Rat := none
deriving DecidableEq, Repr

/-- The `filter > location > boundary` dict. -/
structure BoundaryCfg where
  ne : Option BoundaryPt := none
  sw : Option BoundaryPt := none
  extra : Bool := false
deriving DecidableEq, Repr

/-- The `filter > location` configuration. -/
structure LocationCfg where
  boundary : Option BoundaryCfg := none
  extra : Bool := false
deriving DecidableEq, Repr

/-- The `filter > area` configuration. -/
structure AreaCfg where
  amin : Option Rat := none
  amax : Option Rat := none
  extra : Bool := false
deriving DecidableEq, Repr

/-- The whole `filter` configuration; a criterion key that is absent is
an inactive criterion. -/
structure FilterCfg where
  country : Option CountryCfg := none
  location : Option LocationCfg := none
  area : Option AreaCfg := none
deriving DecidableEq, Repr

/-- Truthiness of an optional list (an empty list counts as absent, as
`config.get('whitelist')` under `if not whitelist`). -/
def listTruthy : Option (List String) → Bool
  | some (_ :: _) => true
  | _ => false

/-- Modelled from the spec (sections 4.5 and 7): validation of the
country criterion — an empty config dict, then exactly one of whitelist
and blacklist. -/
def validateCountry (c : CountryCfg) : Option String :=
  if c.whitelist.isNone && c.blacklist.isNone && !c.extra then
    some missingFilterConfigMsg
  else if listTruthy c.whitelist == listTruthy c.blacklist then
    some specifyWhitelistOrBlacklistMsg
  else
    none

/-- Modelled from the spec: validation of the location criterion — an
empty config dict, a missing boundary, boundary fields (exactly `ne` and
`sw`, each with `lat` and `lng`), then ranges (latitudes in [-90, 90],
longitudes in [-180, 180], north-east not south/west of south-west). -/
def validateLocation (c : LocationCfg) : Option String :=
  if c.boundary.isNone && !c.extra then some missingFilterConfigMsg
  else
    match c.boundary with
    | none => some specifyBoundaryMsg
    | some b =>
      match b.ne, b.sw with
      | some ne, some sw =>
        if b.extra then some invalidBoundaryFieldsMsg
        else
          match ne.lat, ne.lng, sw.lat, sw.lng with
          | some nlat, some nlng, some slat, some slng =>
            if -90 ≤ slat && slat ≤ nlat && nlat ≤ 90 &&
                -180 ≤ slng && slng ≤ nlng && nlng ≤ 180 then
              none
            else some invalidBoundaryMsg
          | _, _, _, _ => some invalidBoundaryFieldsMsg
      | _, _ => some invalidBoundaryFieldsMsg

/-- Modelled from the spec: validation of the area criterion — an empty
config dict, at least one of min/max, both non-negative, min ≤ max. -/
def validateArea (c : AreaCfg) : Option String :=
  if c.amin.isNone && c.amax.isNone && !c.extra then
    some missingFilterConfigMsg
  else if c.amin.isNone && c.amax.isNone then some specifyMinOrMaxMsg
  else if (match c.amin with | some m => decide (m < 0) | none => false) ||
      (match c.amax with | some m => decide (m < 0) | none => false) then
    some invalidMinMaxMustBePosMsg
  else
    match c.amin, c.amax with
    | some mn, some mx =>
      if mx < mn then some invalidMinMustBeLteMaxMsg else none
    | _, _ => none

/-- Modelled from the spec: whether one growth window passes the country
criterion — retained when its country is in the whitelist, or not in
the blacklist (absent-tolerant for the blacklist). -/
def countryKeep (c : CountryCfg) (g : MGrowth) : Bool :=
  if listTruthy c.whitelist then
    match g.country with
    | some ctry => ctry ∈ c.whitelist.getD []
    | none => false
  else
    match g.country with
    | some ctry => ctry ∉ c.blacklist.getD []
    | none => true

/-- Modelled from the spec: whether one growth window passes the
boundary criterion; a window lacking latitude or longitude is a
per-fire data error. -/
def locationKeep (b : BoundaryCfg) (g : MGrowth) : Except String Bool :=
  match b.ne, b.sw with
  | some ne, some sw =>
    match g.latitude, g.longitude, ne.lat, ne.lng, sw.lat, sw.lng with
    | some lat, some lng, some nlat, some nlng, some slat, some slng =>
      .ok (slat ≤ lat && lat ≤ nlat && slng ≤ lng && lng ≤ nlng)
    | _, _, _, _, _, _ => .error missingFireLatLngMsg
  | _, _ => .error missingFireLatLngMsg

/-- Modelled from the spec: whether one growth window passes the area
criterion; a missing area is a per-fire data error, as is a negative
one. -/
def areaKeep (c : AreaCfg) (g : MGrowth) : Except String Bool :=
  match g.area with
  | none => .error missingGrowthAreaMsg
  | some a =>
    if a < 0 then .error negativeGrowthAreaMsg
    else
      .ok ((match c.amin with | some mn => decide (mn ≤ a) | none => true) &&
        (match c.amax with | some mx => decide (a ≤ mx) | none => true))

end FM

namespace FM

/-- Keep the windows a (possibly failing) predicate accepts, stopping at
the first per-window data error. -/
def keepWindows (check : MGrowth → Except String Bool) :
    List MGrowth → Except String (List MGrowth)
  | [] => .ok []
  | g :: gs =>
    match check g with
    | .error e => .error e
    | .ok keep =>
      match keepWindows check gs with
      | .error e => .error e
      | .ok ks => .ok (if keep then g :: ks else ks)

/-- Modelled from the spec (section 4.5): apply one criterion at
growth-window granularity to every fire.  A fire whose growth sequence
becomes empty is removed entirely; a fire raising a per-window data
error is kept unchanged in skip mode, or aborts the pass in fail-fast
mode. -/
def applyCriterion (skip : Bool) (check : MGrowth → Except String Bool) :
    List MFire → Except String (List MFire)
  | [] => .ok []
  | f :: fs =>
    match keepWindows check f.growth with
    | .error e =>
      if skip then
        match applyCriterion skip check fs with
        | .error e2 => .error e2
        | .ok rs => .ok (f :: rs)
      else .error e
    | .ok kept =>
      match applyCriterion skip check fs with
      | .error e2 => .error e2
      | .ok rs => .ok (if kept.isEmpty then rs else { f with growth := kept } :: rs)

/-- Run one configured criterion: a configuration error is raised in
fail-fast mode and makes the criterion a no-op in skip mode. -/
def runCriterion (skip : Bool) (validation : Option String)
    (check : MGrowth → Except String Bool) (fires : List MFire) :
    Except String (List MFire) :=
  match validation with
  | some msg => if skip then .ok fires else .error msg
  | none => applyCriterion skip check fires

/-- Modelled from the spec (section 4.5) and `test_fires.py`:
`FiresManager.filter_fires`.  With no recognized criterion the call is
an error (a no-op in skip mode); otherwise the active criteria run in a
fixed order (country, location, area), each first validating its
configuration. -/
def filterFires (skip : Bool) (cfg : FilterCfg) (fires : List MFire) :
    Except String (List MFire) :=
  if cfg.country.isNone && cfg.location.isNone && cfg.area.isNone then
    if skip then .ok fires else .error noFiltersMsg
  else
    let step1 : Except String (List MFire) :=
      match cfg.country with
      | none => .ok fires
      | some c => runCriterion skip (validateCountry c)
          (fun g => .ok (countryKeep c g)) fires
    match step1 with
    | .error e => .error e
    | .ok fs1 =>
      let step2 : Except String (List MFire) :=
        match cfg.location with
        | none => .ok fs1
        | some c =>
          match c.boundary with
          | some b => runCriterion skip (validateLocation c)
              (locationKeep b) fs1
          | none => runCriterion skip (validateLocation c)
              (fun _ => .error missingFireLatLngMsg) fs1
      match step2 with
      | .error e => .error e
      | .ok fs2 =>
        match cfg.area with
        | none => .ok fs2
        | some c => runCriterion skip (validateArea c) (areaKeep c) fs2

/-- Transition-level view used by the claims about the Manager: apply
the filter to a manager's collection, returning the new collection and
the surfaced error, the collection being unchanged when an error
surfaces. -/
def filterManager (skip : Bool) (cfg : FilterCfg) (fires : List MFire) :
    List MFire × Option String :=
  match filterFires skip cfg fires with
  | .ok fs => (fs, none)
  | .error e => (fires, some e)

/-- Whether the filter configuration is structurally invalid: no
recognized criterion at all, or some present criterion fails its
validation. -/
def cfgInvalid (cfg : FilterCfg) : Bool :=
  (cfg.country.isNone && cfg.location.isNone && cfg.area.isNone) ||
    (match cfg.country with
      | some c => (validateCountry c).isSome
      | none => false) ||
    (match cfg.location with
      | some c => (validateLocation c).isSome
      | none => false) ||
    (match cfg.area with
      | some c => (validateArea c).isSome
      | none => false)

/-- Every present criterion of the configuration is invalid (or there is
none); under this condition skip mode makes the whole filter pass a
no-op. -/
def cfgAllInvalid (cfg : FilterCfg) : Bool :=
  (match cfg.country with
    | some c => (validateCountry c).isSome
    | none => true) &&
  (match cfg.location with
    | some c => (validateLocation c).isSome
    | none => true) &&
  (match cfg.area with
    | some c => (validateArea c).isSome
    | none => true)

end FM

namespace FM

/-- A skip-mode run of a criterion with an invalid configuration is a
no-op. -/
theorem runCriterion_skip_invalid (msg : String)
    (check : MGrowth → Except String Bool) (fires : List MFire) :
    runCriterion true (some msg) check fires = .ok fires := rfl

/-- A fail-fast run of a criterion with an invalid configuration raises
the configuration error. -/
theorem runCriterion_fail_invalid (msg : String)
    (check : MGrowth → Except String Bool) (fires : List MFire) :
    runCriterion false (some msg) check fires = .error msg := rfl

/-- Windows a predicate uniformly rejects are all removed. -/
theorem keepWindows_none (check : MGrowth → Except String Bool)
    (gs : List MGrowth) (h : ∀ g ∈ gs, check g = .ok false) :
    keepWindows check gs = .ok [] := by
  induction gs with
  | nil => rfl
  | cons g gs ih =>
    unfold keepWindows
    rw [h g (by simp), ih (fun g2 h2 => h g2 (by simp [h2]))]
    rfl

/-- The country criterion configured with blacklist `["ZZ"]` and no
whitelist. -/
def cfgBlacklistZZ : FilterCfg :=
  { country := some { blacklist := some ["ZZ"] } }

end FM

namespace FM

/-- A single fire used in the C4 counterexample and witnesses. -/
def c4Fire : MFire := { fid := "1", growth := [{ area := some 10 }] }

end FM

/-- Claim C4, as stated, is false: the empty filter configuration has no
recognized criterion — a structurally invalid configuration — yet with
skip-on-failure enabled `filter_fires` surfaces no error at all (the
call is a no-op), exactly as `test_no_filters_specified` expects.  The
collection is unchanged, but the error is not surfaced to the caller. -/
theorem claim_C4_counterexample :
    FM.filterManager true {} [FM.c4Fire] = ([FM.c4Fire], none) := rfl

/-- Claim C4 (amended; modelled from the spec section 4.5 and
`test_fires.py`): for every filter configuration whose present criteria
are all structurally invalid (including the configuration with no
recognized criterion): with skip-on-failure disabled the filtering
operation surfaces a configuration error and the active collection is
unchanged; with skip-on-failure enabled the error is suppressed and
filtering is a no-op, the collection again unchanged. -/
theorem claim_C4_amended (cfg : FM.FilterCfg) (fires : List FM.MFire)
    (hall : FM.cfgAllInvalid cfg = true) :
    (∃ msg, FM.filterManager false cfg fires = (fires, some msg)) ∧
      FM.filterManager true cfg fires = (fires, none) := by
  unfold FM.cfgAllInvalid at hall
  simp only [Bool.and_eq_true] at hall
  obtain ⟨⟨hc, hl⟩, ha⟩ := hall
  rcases hcc : cfg.country with _ | c <;>
    rcases hll : cfg.location with _ | l <;>
    rcases haa : cfg.area with _ | a <;>
    rw [hcc] at hc <;> rw [hll] at hl <;> rw [haa] at ha <;>
    simp only [Option.isSome_some] at hc hl ha
  · exact ⟨⟨FM.noFiltersMsg,
      by simp [FM.filterManager, FM.filterFires, hcc, hll, haa]⟩,
      by simp [FM.filterManager, FM.filterFires, hcc, hll, haa]⟩
  · obtain ⟨m, hm⟩ := Option.isSome_iff_exists.mp ha
    exact ⟨⟨m, by simp [FM.filterManager, FM.filterFires, hcc, hll, haa, hm,
        FM.runCriterion]⟩,
      by simp [FM.filterManager, FM.filterFires, hcc, hll, haa, hm,
        FM.runCriterion]⟩
  · obtain ⟨m, hm⟩ := Option.isSome_iff_exists.mp hl
    refine ⟨⟨m, ?_⟩, ?_⟩ <;>
      cases hb : l.boundary <;>
      simp [FM.filterManager, FM.filterFires, hcc, hll, haa, hm, hb,
        FM.runCriterion]
  · obtain ⟨m, hm⟩ := Option.isSome_iff_exists.mp hl
    obtain ⟨m3, hm3⟩ := Option.isSome_iff_exists.mp ha
    refine ⟨⟨m, ?_⟩, ?_⟩ <;>
      cases hb : l.boundary <;>
      simp [FM.filterManager, FM.filterFires, hcc, hll, haa, hm, hm3, hb,
        FM.runCriterion]
  · obtain ⟨m, hm⟩ := Option.isSome_iff_exists.mp hc
    exact ⟨⟨m, by simp [FM.filterManager, FM.filterFires, hcc, hll, haa, hm,
        FM.runCriterion]⟩,
      by simp [FM.filterManager, FM.filterFires, hcc, hll, haa, hm,
        FM.runCriterion]⟩
  · obtain ⟨m, hm⟩ := Option.isSome_iff_exists.mp hc
    obtain ⟨m3, hm3⟩ := Option.isSome_iff_exists.mp ha
    exact ⟨⟨m, by simp [FM.filterManager, FM.filterFires, hcc, hll, haa, hm,
        hm3, FM.runCriterion]⟩,
      by simp [FM.filterManager, FM.filterFires, hcc, hll, haa, hm, hm3,
        FM.runCriterion]⟩
  · obtain ⟨m, hm⟩ := Option.isSome_iff_exists.mp hc
    obtain ⟨m2, hm2⟩ := Option.isSome_iff_exists.mp hl
    refine ⟨⟨m, ?_⟩, ?_⟩ <;>
      cases hb : l.boundary <;>
      simp [FM.filterManager, FM.filterFires, hcc, hll, haa, hm, hm2, hb,
        FM.runCriterion]
  · obtain ⟨m, hm⟩ := Option.isSome_iff_exists.mp hc
    obtain ⟨m2, hm2⟩ := Option.isSome_iff_exists.mp hl
    obtain ⟨m3, hm3⟩ := Option.isSome_iff_exists.mp ha
    refine ⟨⟨m, ?_⟩, ?_⟩ <;>
      cases hb : l.boundary <;>
      simp [FM.filterManager, FM.filterFires, hcc, hll, haa, hm, hm2, hm3, hb,
        FM.runCriterion]

/-- Witness for the amended claim C4: the country criterion configured
with both a whitelist and a blacklist is surfaced as a configuration
error in fail-fast mode and suppressed (no-op) in skip mode, the
collection unchanged both times. -/
theorem claim_C4_witness :
    FM.filterManager true
        { country := some { whitelist := some ["YY"],
                            blacklist := some ["ZZ"] } }
        [FM.c4Fire] = ([FM.c4Fire], none) :=
  (claim_C4_amended
    { country := some { whitelist := some ["YY"], blacklist := some ["ZZ"] } }
    [FM.c4Fire] (by decide)).2

/-- Claim C6 (modelled from the spec section 4.5 and
`test_filter_by_country`): filtering by country with blacklist `["ZZ"]`
and no whitelist operates at growth-window granularity — a fire whose
growth windows are all in country "ZZ" is removed entirely, and a fire
with one window in "ZZ" and one in "UK" is kept with only the "UK"
window remaining. -/
theorem claim_C6 (skip : Bool) (f : FM.MFire) :
    ((∀ g ∈ f.growth, g.country = some "ZZ") →
      FM.filterFires skip FM.cfgBlacklistZZ [f] = .ok []) ∧
    (∀ g1 g2 : FM.MGrowth, f.growth = [g1, g2] →
      g1.country = some "ZZ" → g2.country = some "UK" →
      FM.filterFires skip FM.cfgBlacklistZZ [f] =
        .ok [{ f with growth := [g2] }]) := by
  have hv : FM.validateCountry { blacklist := some ["ZZ"] } = none := rfl
  constructor
  · intro hall
    have hkw : FM.keepWindows
        (fun g => .ok (FM.countryKeep { blacklist := some ["ZZ"] } g))
        f.growth = .ok [] := by
      apply FM.keepWindows_none
      intro g hg
      simp [FM.countryKeep, FM.listTruthy, hall g hg]
    show FM.filterFires skip FM.cfgBlacklistZZ [f] = .ok []
    unfold FM.filterFires FM.cfgBlacklistZZ
    dsimp only
    unfold FM.runCriterion
    rw [hv]
    dsimp only
    unfold FM.applyCriterion
    rw [hkw]
    rfl
  · intro g1 g2 hgr h1 h2
    have hkw : FM.keepWindows
        (fun g => .ok (FM.countryKeep { blacklist := some ["ZZ"] } g))
        f.growth = .ok [g2] := by
      rw [hgr]
      simp [FM.keepWindows, FM.countryKeep, FM.listTruthy, h1, h2]
    unfold FM.filterFires FM.cfgBlacklistZZ
    dsimp only
    unfold FM.runCriterion
    rw [hv]
    dsimp only
    unfold FM.applyCriterion
    rw [hkw]
    rfl

namespace FM

/-- C6 witness fires. -/
def c6AllZZ : MFire :=
  { fid := "03", growth := [{ country := some "ZZ" }, { country := some "ZZ" }] }

/-- C6 witness fire with one "ZZ" and one "UK" window. -/
def c6Mixed : MFire :=
  { fid := "12", growth := [{ country := some "ZZ" }, { country := some "UK" }] }

end FM

/-- Witness for claim C6 at the two fires of `test_filter_by_country`:
the all-"ZZ" fire is removed entirely and the mixed fire keeps only its
"UK" window. -/
theorem claim_C6_witness :
    FM.filterFires false FM.cfgBlacklistZZ [FM.c6AllZZ] = .ok [] ∧
      FM.filterFires false FM.cfgBlacklistZZ [FM.c6Mixed] =
        .ok [{ FM.c6Mixed with growth := [{ country := some "UK" }] }] :=
  ⟨(claim_C6 false FM.c6AllZZ).1 (by decide),
    (claim_C6 false FM.c6Mixed).2 { country := some "ZZ" }
      { country := some "UK" } rfl rfl rfl⟩

/-- Claim C10 (modelled from the spec section 4.5 and
`test_filter_by_country`, fires "01" and "02"): under any valid country
whitelist or blacklist configuration, a fire with no growth windows at
all is removed from the collection by the filtering pass — its (empty)
filtered growth sequence is empty, and fires with empty growth
sequences are pruned. -/
theorem claim_C10 (skip : Bool) (f : FM.MFire) (c : FM.CountryCfg)
    (hgr : f.growth = []) (hv : FM.validateCountry c = none) :
    FM.filterFires skip { country := some c } [f] = .ok [] := by
  unfold FM.filterFires
  dsimp only
  unfold FM.runCriterion
  rw [hv]
  dsimp only
  unfold FM.applyCriterion
  rw [hgr]
  rfl

/-- Witness for claim C10: a growth-less fire is removed by the
blacklist-["ZZ"] country filter. -/
theorem claim_C10_witness :
    FM.filterFires false { country := some { blacklist := some ["ZZ"] } }
      [{ fid := "01" }] = .ok [] :=
  claim_C10 false { fid := "01" } { blacklist := some ["ZZ"] } rfl rfl

namespace FM

/-- A failed fire recorded by the skip-on-failure scope: the fire, the
captured error message and a traceback string. -/
structure FailedFire where
  fire : MFire
  message : String
  traceback : String
deriving DecidableEq, Repr

/-- Modelled from the spec: the traceback string recorded with a failed
fire (a non-empty diagnostic derived from the failure). -/
def tracebackOf (msg : String) : String :=
  "Traceback (most recent call last): " ++ msg

/-- Modelled from the spec (section 4.3): the per-fire failure-handling
scope applied over a batch.  `proc` stands for the body run under
`fire_failure_handler`; `some msg` is a raised exception.  On failure in
skip mode, the fire is removed from the active collection (`List.erase`,
matching removal by value), appended to the failed list with message and
traceback, and processing continues; otherwise the exception propagates
with the active collection unchanged. -/
def goBatch (skip : Bool) (proc : MFire → Option String) :
    List MFire → List MFire → List FailedFire →
      List MFire × List FailedFire × Option String
  | [], active, failed => (active, failed, none)
  | f :: fs, active, failed =>
    match proc f with
    | none => goBatch skip proc fs active failed
    | some msg =>
      if skip then
        goBatch skip proc fs (active.erase f)
          (failed ++ [{ fire := f, message := msg, traceback := tracebackOf msg }])
      else (active, failed, some msg)

/-- Run the batch over the whole collection, starting from an empty
failed list. -/
def runBatch (skip : Bool) (proc : MFire → Option String)
    (fires : List MFire) : List MFire × List FailedFire × Option String :=
  goBatch skip proc fires fires []

/-- The failure annotation for one fire. -/
def failureOf (proc : MFire → Option String) (f : MFire) :
    Option FailedFire :=
  match proc f with
  | some m => some { fire := f, message := m, traceback := tracebackOf m }
  | none => none

/-- Generalized form of the skip-mode batch invariant: with the
processed prefix's survivors in front, each failing fire of the
remaining suffix is erased from the active collection and appended,
annotated, to the failed list. -/
theorem goBatch_skip (proc : MFire → Option String) (fs : List MFire) :
    ∀ (pre : List MFire) (failed : List FailedFire),
    (pre ++ fs).Nodup →
    goBatch true proc fs (pre ++ fs) failed =
      (pre ++ fs.filter (fun f => (proc f).isNone),
        failed ++ fs.filterMap (failureOf proc), none) := by
  induction fs with
  | nil => intro pre failed _; simp [goBatch]
  | cons f fs ih =>
    intro pre failed hnd
    unfold goBatch
    cases hp : proc f with
    | none =>
      have h2 := ih (pre ++ [f]) failed (by simpa using hnd)
      simp only [List.append_assoc, List.singleton_append] at h2
      rw [h2]
      simp [List.filter_cons, List.filterMap_cons, hp, failureOf]
    | some msg =>
      have hmem : f ∉ pre := by
        rw [List.nodup_append] at hnd
        intro hc
        exact hnd.2.2 hc (by simp)
      have hnd2 : (pre ++ fs).Nodup := by
        rw [List.nodup_append] at hnd ⊢
        exact ⟨hnd.1, (List.nodup_cons.mp hnd.2.1).2,
          fun a ha hb => hnd.2.2 ha (by simp [hb])⟩
      have herase : (pre ++ f :: fs).erase f = pre ++ fs := by
        rw [List.erase_append_right _ hmem, List.erase_cons_head]
      dsimp only
      rw [if_pos rfl, herase]
      refine (ih pre (failed ++
        [{ fire := f, message := msg, traceback := tracebackOf msg }])
        hnd2).trans ?_
      simp [List.filter_cons, List.filterMap_cons, hp, failureOf]

end FM

namespace FM

/-- In fail-fast mode the batch either completes with no effect or
aborts at the first failure with the active collection unchanged and
nothing recorded. -/
theorem goBatch_failfast (proc : MFire → Option String) (fs : List MFire) :
    ∀ (active : List MFire) (failed : List FailedFire),
    (fs.all (fun f => (proc f).isNone) = true →
      goBatch false proc fs active failed = (active, failed, none)) ∧
    (fs.any (fun f => (proc f).isSome) = true →
      ∃ msg, goBatch false proc fs active failed = (active, failed, some msg)) := by
  induction fs with
  | nil =>
    intro active failed
    exact ⟨fun _ => rfl, fun h => by simp at h⟩
  | cons f fs ih =>
    intro active failed
    constructor
    · intro hall
      simp only [List.all_cons, Bool.and_eq_true] at hall
      unfold goBatch
      rw [Option.isNone_iff_eq_none.mp hall.1]
      exact (ih active failed).1 hall.2
    · intro hany
      unfold goBatch
      cases hp : proc f with
      | some msg => exact ⟨msg, rfl⟩
      | none =>
        simp only [List.any_cons, hp, Bool.or_eq_true] at hany
        rcases hany with hany | hany
        · simp at hany
        · exact (ih active failed).2 hany

end FM

/-- Claim C5 (modelled from the spec sections 4.3 and 7;
`bluesky/models/fires.py` is not among the sources): under the
skip-on-failure policy, every fire whose processing raises is removed
from the active collection and appended to the failed-fires list
annotated with the captured error message and a traceback string, the
exception is suppressed and the remaining fires are processed; with the
policy disabled the first exception propagates, the active collection —
including the offending fire — unchanged and nothing recorded as
failed. -/
theorem claim_C5 (proc : FM.MFire → Option String) (fires : List FM.MFire)
    (hnd : fires.Nodup) :
    FM.runBatch true proc fires =
      (fires.filter (fun f => (proc f).isNone),
        fires.filterMap (FM.failureOf proc), none) ∧
    (fires.all (fun f => (proc f).isNone) = true →
      FM.runBatch false proc fires = (fires, [], none)) ∧
    (fires.any (fun f => (proc f).isSome) = true →
      ∃ msg, FM.runBatch false proc fires = (fires, [], some msg)) := by
  refine ⟨?_, ?_, ?_⟩
  · have h := FM.goBatch_skip proc fires [] [] (by simpa using hnd)
    simpa [FM.runBatch] using h
  · intro hall
    exact (FM.goBatch_failfast proc fires fires []).1 hall
  · intro hany
    exact (FM.goBatch_failfast proc fires fires []).2 hany

namespace FM

/-- The C5 witness batch: fire "2" fails with message "oops". -/
def c5proc : MFire → Option String :=
  fun f => if f.fid = "2" then some "oops" else none

/-- First C5 witness fire (succeeds). -/
def c5f1 : MFire := { fid := "1" }

/-- Second C5 witness fire (fails). -/
def c5f2 : MFire := { fid := "2" }

end FM

/-- Witness for claim C5, mirroring `test_fire_failure_handler`: in skip
mode the failing fire "2" is removed and recorded with message and
traceback while fire "1" survives. -/
theorem claim_C5_witness :
    FM.runBatch true FM.c5proc [FM.c5f1, FM.c5f2] =
      ([FM.c5f1],
        [{ fire := FM.c5f2, message := "oops",
           traceback := FM.tracebackOf "oops" }], none) :=
  ((claim_C5 FM.c5proc [FM.c5f1, FM.c5f2] (by decide)).1).trans (by rfl)

namespace FM

/-- Errors raised by the Collection Manager, separating the immutability
violation (Python `TypeError`) from data-validation errors
(`ValueError`). -/
inductive MgrErr where
  | typeErr (msg : String)
  | valueErr (msg : String)
deriving DecidableEq, Repr

/-- `FiresManager.RUN_ID_IS_IMMUTABLE_MSG`. -/
def runIdImmutableMsg : String := "RUN_ID_IS_IMMUTABLE"

/-- Modelled from the spec (section 4.3): the Manager's run-identifier
cell — unset until first use. -/
structure RunIdState where
  runId : Option String := none
deriving DecidableEq, Repr

/-- Lazy access: generate and store the identifier on first read
(`gen` stands for the `uuid` the Manager would generate). -/
def getRunId (gen : String) (m : RunIdState) : String × RunIdState :=
  match m.runId with
  | some r => (r, m)
  | none => (gen, { runId := some gen })

/-- Loading state: take the loaded `run_id` when present, else generate
(the Manager starts from scratch on load). -/
def loadRunId (gen : String) (state : Option String) : RunIdState :=
  { runId := some (state.getD gen) }

/-- Assignment: allowed exactly once; any later attempt raises the
immutability `TypeError` and leaves the stored value unchanged. -/
def setRunId (v : String) (m : RunIdState) : RunIdState × Option MgrErr :=
  match m.runId with
  | some _ => (m, some (.typeErr runIdImmutableMsg))
  | none => ({ runId := some v }, none)

end FM

/-- Claim C8 (modelled from the spec sections 4.3 and 7;
`bluesky/models/fires.py` is not among the sources, the behaviour is
fixed by `test_run_id_is_immutable`): the run identifier is set exactly
once — lazily on first access, from loaded state, or by caller
assignment — and every subsequent assignment attempt raises the
immutability error, a `TypeError` distinct from data-validation errors,
while the stored value remains unchanged. -/
theorem claim_C8 (gen v w : String) (st : Option String)
    (m : FM.RunIdState) :
    ((FM.getRunId gen m).2.runId.isSome = true) ∧
    ((FM.loadRunId gen st).runId.isSome = true) ∧
    (FM.setRunId v { runId := none } = ({ runId := some v }, none)) ∧
    (m.runId = some w →
      FM.setRunId v m = (m, some (.typeErr FM.runIdImmutableMsg)) ∧
        (FM.setRunId v m).1.runId = some w) := by
  refine ⟨?_, rfl, rfl, ?_⟩
  · unfold FM.getRunId
    cases hm : m.runId with
    | some r => simp [hm]
    | none => rfl
  · intro hset
    unfold FM.setRunId
    rw [hset]
    exact ⟨rfl, hset⟩

/-- Witness for claim C8: a run identifier first set by assignment
rejects a second assignment with the immutability `TypeError`, its value
unchanged. -/
theorem claim_C8_witness :
    FM.setRunId "sdfsdfsdf" { runId := some "eee" } =
        ({ runId := some "eee" }, some (.typeErr FM.runIdImmutableMsg)) ∧
      (FM.setRunId "sdfsdfsdf" { runId := some "eee" }).1.runId =
        some "eee" :=
  (claim_C8 "g" "sdfsdfsdf" "eee" none { runId := some "eee" }).2.2.2 rfl

namespace FM

/-- Proleptic-Gregorian conversion from a day number (days since
1970-01-01) to (year, month, day), Hinnant's civil-from-days algorithm
(Python `datetime.date.fromordinal` up to the epoch shift). -/
def civilFromDays (z0 : Int) : Int × Int × Int :=
  let z := z0 + 719468
  let era := (if z ≥ 0 then z else z - 146096) / 146097
  let doe := z - era * 146097
  let yoe := (doe - doe / 1460 + doe / 36524 - doe / 146096) / 365
  let y := yoe + era * 400
  let doy := doe - (365 * yoe + yoe / 4 - yoe / 100)
  let mp := (5 * doy + 2) / 153
  let d := doy - (153 * mp + 2) / 5 + 1
  let m := mp + (if mp < 10 then 3 else -9)
  (y + (if m ≤ 2 then 1 else 0), m, d)

/-- Zero-padded decimal rendering of a (non-negative) component. -/
def padInt (w : Nat) (n : Int) : List Char :=
  let s := (toString n.natAbs).toList
  (if n < 0 then ['-'] else []) ++ List.replicate (w - s.length) '0' ++ s

/-- A minimal `strftime` over a (year, month, day) date: the directives
the configuration tests exercise, all other characters copied
verbatim. -/
def strf (c : Int × Int × Int) : List Char → List Char
  | [] => []
  | '%' :: 'Y' :: rest => padInt 4 c.1 ++ strf c rest
  | '%' :: 'm' :: rest => padInt 2 c.2.1 ++ strf c rest
  | '%' :: 'd' :: rest => padInt 2 c.2.2 ++ strf c rest
  | '%' :: 'H' :: rest => '0' :: '0' :: strf c rest
  | '%' :: 'M' :: rest => '0' :: '0' :: strf c rest
  | '%' :: 'S' :: rest => '0' :: '0' :: strf c rest
  | x :: rest => x :: strf c rest

/-- Split a character list at the first `:` (separating a token name
from its optional format pattern). -/
def splitAtColon : List Char → List Char × Option (List Char)
  | [] => ([], none)
  | c :: cs =>
    if c = ':' then ([], some cs)
    else
      let p := splitAtColon cs
      (c :: p.1, p.2)

/-- Decimal value of digit characters. -/
def digitsValNat (cs : List Char) : Nat :=
  cs.foldl (fun acc c => acc * 10 + (c.toNat - 48)) 0

/-- Recognize a date-token name: `today`, `yesterday`, or `today` with a
signed day offset; returns the offset in days. -/
def parseName (name : List Char) : Option Int :=
  if name = "today".toList then some 0
  else if name = "yesterday".toList then some (-1)
  else
    match name with
    | 't' :: 'o' :: 'd' :: 'a' :: 'y' :: sgn :: ds =>
      if (sgn = '+' || sgn = '-') && !ds.isEmpty &&
          ds.all (fun c => c.isDigit) then
        some ((if sgn = '+' then 1 else -1) * Int.ofNat (digitsValNat ds))
      else none
    | _ => none

/-- Recognize a full brace body as a date token with optional (non-empty)
format pattern. -/
def parseTok (body : List Char) : Option (Int × Option (List Char)) :=
  let p := splitAtColon body
  match parseName p.1 with
  | some off =>
    match p.2 with
    | some [] => none
    | some f => some (off, some f)
    | none => some (off, none)
  | none => none

/-- Render one date token relative to the reference day number: the
default pattern is `%Y%m%d` (the form the tests expect for a bare
token). -/
def renderTok (d off : Int) (fmt : Option (List Char)) : List Char :=
  let c := civilFromDays (d + off)
  match fmt with
  | none => padInt 4 c.1 ++ padInt 2 c.2.1 ++ padInt 2 c.2.2
  | some f => strf c f

/-- Split a character list at the first closing brace, returning the
body before it and the tail after it. -/
def splitAtClose : List Char → Option (List Char × List Char)
  | [] => none
  | c :: cs =>
    if c = '\x7d' then some ([], cs)
    else
      match splitAtClose cs with
      | some p => some (c :: p.1, p.2)
      | none => none

/-- The split decomposes the input around the first closing brace. -/
theorem splitAtClose_eq (cs body tail : List Char)
    (h : splitAtClose cs = some (body, tail)) :
    cs = body ++ '\x7d' :: tail := by
  induction cs generalizing body tail with
  | nil => simp [splitAtClose] at h
  | cons c cs ih =>
    unfold splitAtClose at h
    split_ifs at h with hc
    · injection h with h
      obtain ⟨h1, h2⟩ := Prod.mk.injEq _ _ _ _ |>.mp h
      rw [← h1, ← h2, hc]
      rfl
    · cases hsp : splitAtClose cs with
      | none => rw [hsp] at h; exact Option.noConfusion h
      | some p =>
        rw [hsp] at h
        dsimp only at h
        injection h with h
        obtain ⟨h1, h2⟩ := Prod.mk.injEq _ _ _ _ |>.mp h
        have := ih p.1 p.2 (by rw [hsp])
        rw [← h1, ← h2]
        simp [this]

end FM

namespace FM

/-- The tail after the first closing brace is shorter than the input. -/
theorem splitAtClose_length (cs body tail : List Char)
    (h : splitAtClose cs = some (body, tail)) :
    tail.length < cs.length := by
  have := splitAtClose_eq cs body tail h
  rw [this]
  simp
  omega

/-- Modelled from the spec (section 4.3): resolve the date-template
tokens `\x7btoday\x7d`, `\x7byesterday\x7d`, `\x7btoday±N\x7d` — each
optionally followed by `:` and a format pattern — through one string,
left to right, relative to the reference day number `d`.  Replacement
text is emitted, never rescanned ("without re-expanding
already-resolved text"); an unrecognized brace span is copied verbatim
and scanning resumes after its closing brace. -/
def resolveChars (d : Int) : List Char → List Char
  | [] => []
  | c :: cs =>
    if c = '\x7b' then
      match hsp : splitAtClose cs with
      | none => c :: cs
      | some p =>
        match parseTok p.1 with
        | some tok =>
          renderTok d tok.1 tok.2 ++ resolveChars d p.2
        | none => '\x7b' :: (p.1 ++ '\x7d' :: resolveChars d p.2)
    else c :: resolveChars d cs
termination_by cs => cs.length
decreasing_by
  · simpa using Nat.lt_succ_of_lt (splitAtClose_length cs p.1 p.2 hsp)
  · simpa using Nat.lt_succ_of_lt (splitAtClose_length cs p.1 p.2 hsp)

/-- Whether the scanner finds any date token in the string. -/
def containsDateToken : List Char → Bool
  | [] => false
  | c :: cs =>
    if c = '\x7b' then
      match hsp : splitAtClose cs with
      | none => false
      | some p => (parseTok p.1).isSome || containsDateToken p.2
    else containsDateToken cs
termination_by cs => cs.length
decreasing_by
  · simpa using Nat.lt_succ_of_lt (splitAtClose_length cs p.1 p.2 hsp)
  · simp

/-- String-level resolution. -/
def resolveString (d : Int) (s : String) : String :=
  String.mk (resolveChars d s.toList)

/-- A string free of date tokens. -/
def strTokenFree (s : String) : Bool := !containsDateToken s.toList

end FM

namespace FM

/-- Unfolding: resolution of the empty string. -/
theorem resolveChars_nil (d : Int) : resolveChars d [] = [] := by
  rw [resolveChars]

/-- Unfolding: resolution at an opening brace. -/
theorem resolveChars_open (d : Int) (cs : List Char) :
    resolveChars d ('\x7b' :: cs) =
      (match splitAtClose cs with
       | none => '\x7b' :: cs
       | some p =>
         match parseTok p.1 with
         | some tok => renderTok d tok.1 tok.2 ++ resolveChars d p.2
         | none => '\x7b' :: (p.1 ++ '\x7d' :: resolveChars d p.2)) := by
  rw [resolveChars]
  simp only [reduceIte]
  split
  · rename_i heq
    rw [heq]
  · rename_i p heq
    rw [heq]

/-- Unfolding: resolution at an ordinary character. -/
theorem resolveChars_other (d : Int) (c : Char) (cs : List Char)
    (hc : c ≠ '\x7b') :
    resolveChars d (c :: cs) = c :: resolveChars d cs := by
  rw [resolveChars]
  rw [if_neg hc]

/-- Unfolding: the token test on the empty string. -/
theorem containsDateToken_nil : containsDateToken [] = false := by
  rw [containsDateToken]

/-- Unfolding: the token test at an opening brace. -/
theorem containsDateToken_open (cs : List Char) :
    containsDateToken ('\x7b' :: cs) =
      (match splitAtClose cs with
       | none => false
       | some p => (parseTok p.1).isSome || containsDateToken p.2) := by
  rw [containsDateToken]
  simp only [reduceIte]
  split
  · rename_i heq
    rw [heq]
  · rename_i p heq
    rw [heq]

/-- Unfolding: the token test at an ordinary character. -/
theorem containsDateToken_other (c : Char) (cs : List Char)
    (hc : c ≠ '\x7b') :
    containsDateToken (c :: cs) = containsDateToken cs := by
  rw [containsDateToken]
  rw [if_neg hc]

/-- A string the scanner finds no date token in is left unchanged by
resolution: already-resolved (token-free) text is never re-expanded. -/
theorem resolveChars_tokenFree (d : Int) :
    ∀ (n : Nat) (cs : List Char), cs.length ≤ n →
      containsDateToken cs = false → resolveChars d cs = cs := by
  intro n
  induction n with
  | zero =>
    intro cs hl _
    rw [Nat.le_zero, List.length_eq_zero] at hl
    subst hl
    exact resolveChars_nil d
  | succ n ih =>
    intro cs hl h
    cases cs with
    | nil => exact resolveChars_nil d
    | cons c cs =>
      by_cases hc : c = '\x7b'
      · subst hc
        rw [containsDateToken_open] at h
        rw [resolveChars_open]
        cases hsp : splitAtClose cs with
        | none => rfl
        | some p =>
          rw [hsp] at h
          dsimp only at h ⊢
          rw [Bool.or_eq_false_iff] at h
          have hpt : parseTok p.1 = none :=
            Option.not_isSome_iff_eq_none.mp (by simp [h.1])
          rw [hpt]
          dsimp only
          have hlen : p.2.length ≤ n := by
            have h1 := splitAtClose_length cs p.1 p.2 hsp
            simp only [List.length_cons] at hl
            omega
          rw [ih p.2 hlen h.2]
          have heq := splitAtClose_eq cs p.1 p.2 hsp
          rw [← heq]
      · rw [resolveChars_other d c cs hc]
        rw [containsDateToken_other c cs hc] at h
        have hlen : cs.length ≤ n := by
          simp only [List.length_cons] at hl
          omega
        rw [ih cs hlen h]

end FM

namespace FM

mutual
/-- Modelled from the spec: a configuration value — a string (subject to
date-template resolution), a non-string scalar, or a nested map. -/
inductive CVal where
  | str (s : String)
  | num (n : Int)
  | obj (t : CTree)
deriving DecidableEq
/-- A (possibly nested) configuration map as an ordered key/value
tree. -/
inductive CTree where
  | nil
  | node (k : String) (v : CVal) (rest : CTree)
deriving DecidableEq
end

mutual
/-- Resolve date templates through one configuration value. -/
def resolveVal (d : Int) : CVal → CVal
  | .str s => .str (resolveString d s)
  | .num n => .num n
  | .obj t => .obj (resolveTree d t)
/-- Resolve date templates through every string value of the map. -/
def resolveTree (d : Int) : CTree → CTree
  | .nil => .nil
  | .node k v rest => .node k (resolveVal d v) (resolveTree d rest)
end

mutual
/-- Every string in the value is free of date tokens. -/
def valTokenFree : CVal → Bool
  | .str s => strTokenFree s
  | .num _ => true
  | .obj t => treeTokenFree t
/-- Every string value in the map is free of date tokens. -/
def treeTokenFree : CTree → Bool
  | .nil => true
  | .node _ v rest => valTokenFree v && treeTokenFree rest
end

/-- Modelled from the spec (section 4.3): the Collection Manager's
configuration state — the raw configuration as supplied, and the
"today" reference (a day number).  The resolved configuration is always
recomputed from the raw map, so resolution never operates on its own
output. -/
structure ConfigMgr where
  raw : CTree
  today : Int
deriving DecidableEq

/-- Set the "today" reference date. -/
def setToday (d : Int) (m : ConfigMgr) : ConfigMgr := { m with today := d }

/-- The resolved configuration the Manager exposes. -/
def configOf (m : ConfigMgr) : CTree := resolveTree m.today m.raw

end FM

namespace FM

/-- Token-free strings are fixed points of resolution. -/
theorem resolveString_tokenFree (d : Int) (s : String)
    (h : strTokenFree s = true) : resolveString d s = s := by
  unfold strTokenFree at h
  rw [Bool.not_eq_true'] at h
  unfold resolveString
  rw [resolveChars_tokenFree d s.toList.length s.toList le_rfl h]
  cases s
  rfl

mutual
/-- A value free of date tokens resolves identically under any two
reference dates. -/
theorem resolveVal_tokenFree (d d2 : Int) (v : CVal)
    (h : valTokenFree v = true) : resolveVal d v = resolveVal d2 v := by
  cases v with
  | str s =>
    unfold valTokenFree at h
    unfold resolveVal
    rw [resolveString_tokenFree d s h, resolveString_tokenFree d2 s h]
  | num n => rfl
  | obj t =>
    unfold valTokenFree at h
    unfold resolveVal
    rw [resolveTree_tokenFree d d2 t h]
/-- A map free of date tokens resolves identically under any two
reference dates. -/
theorem resolveTree_tokenFree (d d2 : Int) (t : CTree)
    (h : treeTokenFree t = true) : resolveTree d t = resolveTree d2 t := by
  cases t with
  | nil => rfl
  | node k v rest =>
    unfold treeTokenFree at h
    rw [Bool.and_eq_true] at h
    unfold resolveTree
    rw [resolveVal_tokenFree d d2 v h.1, resolveTree_tokenFree d d2 rest h.2]
end

end FM

/-- Claim C9 (modelled from the spec section 4.3;
`bluesky/models/fires.py` is not among the sources): the Manager's
date-template resolution is idempotent for a fixed "today" — resolution
always recomputes from the stored raw configuration, so invoking it a
second time with the same reference date yields an identical
configuration; token-free (already-resolved) text is a fixed point of
resolution, never re-expanded; and changing the reference date and
re-resolving changes only date-derived values — every value whose
strings carry no date token is unchanged. -/
theorem claim_C9 (m : FM.ConfigMgr) (d d2 : Int) (s : String)
    (t : FM.CTree) :
    (FM.configOf (FM.setToday d (FM.setToday d m)) =
      FM.configOf (FM.setToday d m)) ∧
    (FM.strTokenFree s = true → FM.resolveString d s = s) ∧
    (FM.treeTokenFree t = true →
      FM.resolveTree d t = FM.resolveTree d2 t) :=
  ⟨rfl, FM.resolveString_tokenFree d s, FM.resolveTree_tokenFree d d2 t⟩

namespace FM

/-- The C9 witness configuration: one token-free string value. -/
def c9WitnessTree : CTree := .node "foo" (.str "bar") .nil

end FM

/-- Witness for claim C9: the token-free string "foo" is a fixed point
of resolution, and the token-free one-entry map resolves identically
under two different reference dates. -/
theorem claim_C9_witness :
    FM.resolveString 16925 "foo" = "foo" ∧
      FM.resolveTree 16925 FM.c9WitnessTree =
        FM.resolveTree 16926 FM.c9WitnessTree :=
  ⟨(claim_C9 { raw := .nil, today := 0 } 16925 16926 "foo"
      FM.c9WitnessTree).2.1
      (by simp [FM.strTokenFree, FM.containsDateToken_other,
        FM.containsDateToken_nil, String.toList]),
    (claim_C9 { raw := .nil, today := 0 } 16925 16926 "foo"
      FM.c9WitnessTree).2.2
      (by simp [FM.c9WitnessTree, FM.treeTokenFree, FM.valTokenFree,
        FM.strTokenFree, FM.containsDateToken_other,
        FM.containsDateToken_nil, String.toList])⟩
